import Mathlib

/-!
Verification development for the ensnano DNA-nanostructure design
application.  Rust source files are shallowly embedded in Lean: pure
functions become Lean functions, stateful code becomes explicit state
passing, Rust machine integers become Nat/Int (usize subtraction is
modelled with an explicit underflow check), f32/f64 arithmetic is
idealized over the reals and rationals, and code that can panic returns
Option.
-/

/-! ## Shared discrete data model

The types below are referenced by several embedded functions.  `Nucl`,
`Domain` and `Strand` live in the design data module, which is not part
of the excerpted sources; they are modelled from the spec (§3).
-/

/-- Modelled from the spec: `Nucl` — logical nucleotide identity
`{helix: usize, position: isize, forward: bool}` (§3); the defining
module `design/data` is not under `src/`. -/
structure Nucl where
  helix : Nat
  position : Int
  forward : Bool
deriving DecidableEq, Repr

/-- Modelled from the spec: a strand `Domain` — either a contiguous run
`[start, stop)` on a helix in a given direction, or a loop-out of a given
length (§3); the defining module is not under `src/`. -/
inductive Domain where
  | helixDomain (helix : Nat) (start stop : Int) (forward : Bool)
  | loopout (length : Nat)
deriving DecidableEq, Repr

/-- Modelled from the spec: `Strand` — ordered list of domains, a display
color, an optional explicit sequence, scaffold flag and circular flag
(§3); the defining module is not under `src/`. -/
structure Strand where
  domains : List Domain
  color : Nat
  sequence : Option (List Char)
  is_scaffold : Bool
  circular : Bool
deriving DecidableEq, Repr

/-! ## C5 — save-path extension normalization (src/gui/top_bar.rs 192-220)

The `FileSaveRequested` arm manipulates the chosen path through Rust's
`Path::extension` / `PathBuf::set_extension`.  Those two std functions
are modelled here at the file-name level (a list of characters):
`extension` is the portion of the file name after the last `.`, none when
there is no `.` or the only `.` is the leading character (hidden files)
or the name is `..`; `set_extension` truncates to the stem and appends
`.` and the new extension. -/

/-- Index of the last occurrence of `.` in a file name, if any. -/
def lastDotIdx : List Char → Option Nat
  | [] => none
  | c :: cs =>
    match lastDotIdx cs with
    | some i => some (i + 1)
    | none => if c = '.' then some 0 else none

/-- Rust `split_file_at_dot`: file stem and optional extension. -/
def splitFileAtDot (name : List Char) : List Char × Option (List Char) :=
  if name = ['.', '.'] then (name, none)
  else
    match lastDotIdx name with
    | none => (name, none)
    | some 0 => (name, none)
    | some i => (name.take i, some (name.drop (i + 1)))

/-- Rust `Path::extension` on a file name. -/
def fileExtension (name : List Char) : Option (List Char) :=
  (splitFileAtDot name).2

/-- Rust `PathBuf::set_extension` on a file name. -/
def setExtension (name ext : List Char) : List Char :=
  let stem := (splitFileAtDot name).1
  if ext = [] then stem else stem ++ '.' :: ext

/-- The `FileSaveRequested` normalization from `TopBar::update`
(src/gui/top_bar.rs 202-212): no extension → set `json`; an extension
other than `json` → set `{old}.json`; extension `json` → unchanged. -/
def fileSaveNormalize (name : List Char) : List Char :=
  match fileExtension name with
  | none => setExtension name ['j', 's', 'o', 'n']
  | some e =>
    if e = ['j', 's', 'o', 'n'] then name
    else setExtension name (e ++ '.' :: ['j', 's', 'o', 'n'])

/-! ## C6 — scadnano strand color parsing (src/design/data/scadnano.rs 126-134)

`ScadnanoStrand::color` evaluates `u32::from_str_radix(&self.color[1..], 16).ok()`,
logging a warning when the parse fails.  The byte slice `&self.color[1..]`
panics when the string is empty (and, irrelevantly here, when the first
character is multi-byte); the panic is modelled as the outer `none` of an
`Option (Option Nat)` result.  `u32::from_str_radix` is embedded below:
an optional leading `+` (the only sign accepted for an unsigned target),
then hexadecimal digits accumulated with an overflow check against
`2 ^ 32`. -/

/-- Rust `char::to_digit(16)`. -/
def hexDigitVal (c : Char) : Option Nat :=
  if 48 ≤ c.toNat ∧ c.toNat ≤ 57 then some (c.toNat - 48)
  else if 97 ≤ c.toNat ∧ c.toNat ≤ 102 then some (c.toNat - 97 + 10)
  else if 65 ≤ c.toNat ∧ c.toNat ≤ 70 then some (c.toNat - 65 + 10)
  else none

/-- One accumulation step of `from_str_radix`: multiply by the radix and
add the digit, failing on a non-digit or on `u32` overflow. -/
def hexStep (acc : Option Nat) (c : Char) : Option Nat :=
  match acc with
  | none => none
  | some a =>
    match hexDigitVal c with
    | none => none
    | some d => if a * 16 + d < 2 ^ 32 then some (a * 16 + d) else none

/-- Digit-accumulation loop of `from_str_radix`. -/
def parseHexDigits (ds : List Char) : Option Nat :=
  ds.foldl hexStep (some 0)

/-- Rust `u32::from_str_radix(s, 16)`: strip a leading `+` when present,
fail on an empty digit string, otherwise run the accumulation loop
(a digit string led by a non-sign character is never empty). -/
def from_str_radix_u32_16 (s : List Char) : Option Nat :=
  match s with
  | [] => none
  | c :: rest =>
    if c = '+' then (if rest = [] then none else parseHexDigits rest)
    else parseHexDigits (c :: rest)

/-- `ScadnanoStrand::color`: skip the first character (the expected `#`)
and hex-parse the remainder.  The outer `none` models the panic of the
byte slice `&self.color[1..]` on an empty string. -/
def ScadnanoStrand.color : List Char → Option (Option Nat)
  | [] => none
  | _ :: rest => some (from_str_radix_u32_16 rest)

/-! ## C3 — same-helix CrossCut rejection (src/flatscene.rs 260-288)

The `Consequence::CutCross(from, to)` arm of `FlatScene::read_consequence`
guards the whole operation behind `from.helix != to.helix`, then asks the
2D data adapter for the cut-cross resolution and, when it resolves, posts
a `CrossCut` operation to the mediator.  The data adapter (`cut_cross`,
`get_strand`) is not part of the excerpted sources, so it is passed in as
a function; the emitted mediator call is the return value (`none` both
when nothing is emitted and on the `.unwrap()` panic of a missing
strand). -/

/-- Modelled from the spec: the flatscene helix handle — a view-local
(flat) index together with the real design helix id (§4.7); the defining
module is not under `src/`. -/
structure FlatHelix where
  flat : Nat
  real : Nat
deriving DecidableEq, Repr

/-- Modelled from the spec: a nucleotide position in flat (view-local)
helix space (§4.7); the defining module is not under `src/`. -/
structure FlatNucl where
  helix : FlatHelix
  position : Int
  forward : Bool
deriving DecidableEq, Repr

/-- Modelled from the spec: `FlatNucl::to_real` — remap the flat helix
index to the real design helix id (§4.7). -/
def FlatNucl.to_real (n : FlatNucl) : Nucl :=
  { helix := n.helix.real, position := n.position, forward := n.forward }

/-- The payload of the `CrossCut` mediator operation built by the
`CutCross` arm (src/flatscene.rs 276-285). -/
structure CrossCutOp where
  source_strand : Strand
  target_strand : Strand
  source_id : Nat
  target_id : Nat
  target_3prime : Bool
  nucl : Nucl
  undo : Bool
  design_id : Nat
deriving DecidableEq, Repr

/-- The `Consequence::CutCross` arm of `FlatScene::read_consequence`
(src/flatscene.rs 260-288).  `cut_cross` and `get_strand` stand for the
data adapter calls whose implementations are not under `src/`; `none`
models both "no operation posted" and the `.unwrap()` panic on a missing
strand. -/
def readConsequenceCutCross
    (cut_cross : FlatNucl → FlatNucl → Option (Nat × Nat × Bool))
    (get_strand : Nat → Option Strand)
    (selected_design : Nat)
    (fromNucl toNucl : FlatNucl) : Option CrossCutOp :=
  if fromNucl.helix ≠ toNucl.helix then
    match cut_cross fromNucl toNucl with
    | some (source_id, target_id, target_3prime) =>
      match get_strand source_id, get_strand target_id with
      | some source_strand, some target_strand =>
        some { source_strand := source_strand, target_strand := target_strand,
               source_id := source_id, target_id := target_id,
               target_3prime := target_3prime, nucl := toNucl.to_real,
               undo := false, design_id := selected_design }
      | _, _ => none
    | none => none
  else none

/-! ## Geometry carriers

`ultraviolet::Vec3` / `Rotor3` (vendored linear algebra, f32) are
idealized over the reals.  Only the operations used by the embedded
functions are defined. -/

/-- `ultraviolet::Vec3` over the reals. -/
structure Vec3 where
  x : ℝ
  y : ℝ
  z : ℝ

noncomputable instance : Add Vec3 := ⟨fun a b => ⟨a.x + b.x, a.y + b.y, a.z + b.z⟩⟩

noncomputable instance : Sub Vec3 := ⟨fun a b => ⟨a.x - b.x, a.y - b.y, a.z - b.z⟩⟩

noncomputable instance : Neg Vec3 := ⟨fun a => ⟨-a.x, -a.y, -a.z⟩⟩

noncomputable instance : SMul ℝ Vec3 := ⟨fun c a => ⟨c * a.x, c * a.y, c * a.z⟩⟩

noncomputable instance : HMul Vec3 ℝ Vec3 := ⟨fun a c => ⟨a.x * c, a.y * c, a.z * c⟩⟩

noncomputable instance : HDiv Vec3 ℝ Vec3 := ⟨fun a c => ⟨a.x / c, a.y / c, a.z / c⟩⟩

noncomputable instance : Zero Vec3 := ⟨⟨0, 0, 0⟩⟩

/-- `Vec3::dot`. -/
noncomputable def Vec3.dot (a b : Vec3) : ℝ := a.x * b.x + a.y * b.y + a.z * b.z

/-- `Vec3::mag_sq`. -/
noncomputable def Vec3.mag_sq (a : Vec3) : ℝ := a.dot a

/-- `Vec3::mag`. -/
noncomputable def Vec3.mag (a : Vec3) : ℝ := Real.sqrt a.mag_sq

/-- `Vec3::cross`. -/
noncomputable def Vec3.cross (a b : Vec3) : Vec3 :=
  ⟨a.y * b.z - a.z * b.y, a.z * b.x - a.x * b.z, a.x * b.y - a.y * b.x⟩

/-- `ultraviolet::Rotor3` (vendored), carried opaquely as its four scalar
components; no rotor operation is needed by the embedded functions. -/
structure Rotor3 where
  s : ℝ
  xy : ℝ
  xz : ℝ
  yz : ℝ

/-- Modelled from the spec: `Parameters` — per-design DNA geometry
constants (helix radius, base rise `z_step`, bases per turn, inter-helix
gap, §3); the defining module is not under `src/`. -/
structure Parameters where
  helix_radius : ℝ
  z_step : ℝ
  bases_per_turn : ℝ
  inter_helix_gap : ℝ

/-- Modelled from the spec: `Helix` (§3) — a geometric frame exposing
`space_pos` (3D coordinate of the nucleotide at a signed offset and
strand direction) and `axis_position` (point on the helix axis).  The
implementation is not under `src/`, so the two geometry queries are
carried as function-valued fields; the embedded roller code only applies
them. -/
structure Helix where
  position : Vec3
  space_pos : Parameters → Int → Bool → Vec3
  axis_position : Parameters → Int → Vec3

/-! ## Design model for `Design::apply_operation` (src/design.rs 214-379)

`Design::apply_operation` dispatches each `UndoableOp` variant to a
mutation method of `Data` and classifies the result as
`BigChange`/`UndoableChange`/`NoChange`.  The `Data` implementation is
not under `src/`: the strand map is modelled concretely (it is what
`StrandState` snapshots and what `make_cycle` touches), and every other
mutation method is an abstract state transformer collected in `DataOps`.
The dispatching logic itself is translated from src/design.rs. -/

/-- Modelled from the spec: `StrandState` — the explicit strand-topology
snapshot returned for big operations (§3, §4.2); concretely the strand
id → strand map. -/
abbrev StrandState := List (Nat × Strand)

/-- Modelled from the spec: the strand-topology-relevant portion of
`Data` (§3); all other state is only touched through the abstract
transformers of `DataOps`. -/
structure DataM where
  strands : StrandState
deriving DecidableEq

/-- `Data::get_strand_state` (not under `src/`): snapshot the strand
map. -/
def Data.get_strand_state (d : DataM) : StrandState := d.strands

/-- Modelled from the spec: `Data::make_cycle(s_id, cycle)` — make the
strand with id `s_id` circular (`cycle = true`) or linear
(`cycle = false`) (§4.2 self-cross-over case); not under `src/`. -/
def Data.make_cycle (s_id : Nat) (cycle : Bool) (d : DataM) : DataM :=
  ⟨d.strands.map (fun p => if p.1 = s_id then (p.1, { p.2 with circular := cycle }) else p)⟩

/-- `GridHelixDescriptor` (src/design.rs 1081-1087). -/
structure GridHelixDescriptor where
  grid_id : Nat
  x : Int
  y : Int

/-- `IsometryTarget` (src/design/controller.rs 126-134). -/
inductive IsometryTarget where
  | Design
  | Helix (id : Nat) (b : Bool)
  | Grid (id : Nat)

/-- `DesignTranslation` (src/design/controller.rs 119-123). -/
structure DesignTranslation where
  translation : Vec3
  target : IsometryTarget

/-- `DesignRotation` (src/design/controller.rs 110-116). -/
structure DesignRotation where
  origin : Vec3
  rotation : Rotor3
  target : IsometryTarget

/-- Modelled from the spec: grid type strings recognized by the design
(`square`, `honeycomb`, §4.5). -/
inductive GridTypeDescr where
  | square
  | honeycomb

/-- Modelled from the spec: `GridDescriptor` — type, position and
orientation of a grid (§3); not under `src/`, payload carried opaquely
by `apply_operation`. -/
structure GridDescriptor where
  position : Vec3
  orientation : Rotor3
  grid_type : GridTypeDescr

/-- Modelled from the spec: the interface of `StrandBuilder` consumed by
`apply_operation` (`reset`/`created_de_novo`/`get_moving_end_nucl`/
`get_initial_nucl`, §4.2); not under `src/`, carried as data. -/
structure StrandBuilder where
  created_de_novo : Bool
  moving_end_nucl : Nucl
  initial_nucl : Nucl
deriving DecidableEq

/-- Modelled from the spec: the helix-bundle generator payload of
`NewHyperboloid` (§4.2); not under `src/`, carried opaquely. -/
structure Hyperboloid where
  radius : ℝ
  length : ℝ
  shift : ℝ

/-- Modelled from the spec: a physics snapshot restored by
`UndoGridSimulation`/`UndoHelixSimulation` (§4.2, §4.3); not under
`src/`, carried opaquely. -/
structure SimulationSnapshot where
  positions : List Vec3

/-- `OperationResult` (src/design.rs 1089-1094). -/
inductive OperationResult where
  | BigChange (before after : StrandState)
  | UndoableChange
  | NoChange
deriving DecidableEq

/-- Whether an `OperationResult` is a `BigChange`. -/
def OperationResult.isBigChange : OperationResult → Bool
  | .BigChange _ _ => true
  | _ => false

/-- `UndoableOp` (mediator module, not under `src/`): the closed variant
set, with the payloads read off the `apply_operation` match arms
(src/design.rs 214-379) and the spec (§4.2). -/
inductive UndoableOp where
  | Rotation (rotation : DesignRotation)
  | Translation (translation : DesignTranslation)
  | MakeAllGrids
  | AddGridHelix (desc : GridHelixDescriptor) (position : Int) (length : Nat)
  | RmGridHelix (desc : GridHelixDescriptor) (position : Int) (length : Nat)
  | RmStrand (strand : Strand) (strand_id : Nat) (undo : Bool)
  | RmGrid
  | AddGrid (descriptor : GridDescriptor)
  | ResetBuilder (builder : StrandBuilder)
  | MoveBuilder (builder : StrandBuilder) (remake : Option (Nat × Nat))
  | RawHelixCreation (helix : Helix) (h_id : Nat) (delete : Bool)
  | Cut (nucl : Nucl) (strand : Strand) (undo : Bool) (s_id : Nat)
  | Xover (strand_5prime : Strand) (strand_3prime : Strand)
      (prime5_id : Nat) (prime3_id : Nat) (undo : Bool)
  | CrossCut (source_strand : Strand) (target_strand : Strand)
      (source_id : Nat) (target_id : Nat) (target_3prime : Bool)
      (nucl : Nucl) (undo : Bool)
  | NewHyperboloid (position : Vec3) (orientation : Rotor3) (hyperboloid : Hyperboloid)
  | ClearHyperboloid
  | NewStrandState (state : StrandState)
  | ResetCopyPaste
  | UndoGridSimulation (initial_state : SimulationSnapshot)
  | UndoHelixSimulation (initial_state : SimulationSnapshot)

/-- Modelled from the spec: the `Data` mutation methods (and the
controller isometries) invoked by `Design::apply_operation`; their
implementations are not under `src/`, so each is an abstract state
transformer.  `translate` also returns the boolean of
`Controller::translate` (spec §4.1: `false` means the translation was a
no-op, e.g. below epsilon, and `apply_operation` answers `NoChange`). -/
structure DataOps where
  create_grids : DataM → DataM
  build_helix_grid : Nat → Int → Int → Int → Nat → DataM → DataM
  rm_full_helix_grid : Nat → Int → Int → Int → DataM → DataM
  rm_helix_grid : Nat → Int → Int → DataM → DataM
  undoable_rm_strand : Strand → Nat → Bool → DataM → DataM
  delete_last_grid : DataM → DataM
  add_grid : GridDescriptor → DataM → DataM
  rm_strand_containing_nucl : Nucl → DataM → DataM
  remake_strand : Nucl → Nat → Nat → DataM → DataM
  remove_helix : Nat → DataM → DataM
  add_helix : Helix → Nat → DataM → DataM
  split_strand : Nucl → Option Nat → DataM → DataM
  undo_split : Strand → Nat → DataM → DataM
  merge_strands : Nat → Nat → DataM → DataM
  undo_merge : Strand → Strand → Nat → Nat → DataM → DataM
  cross_cut : Nat → Nat → Nucl → Bool → DataM → DataM
  undo_cross_cut : Strand → Strand → Nat → Nat → DataM → DataM
  add_hyperboloid : Vec3 → Rotor3 → Hyperboloid → DataM → DataM
  clear_hyperboloid : DataM → DataM
  new_strand_state : StrandState → DataM → DataM
  reset_copy_paste : DataM → DataM
  undo_grid_simulation : SimulationSnapshot → DataM → DataM
  undo_helix_simulation : SimulationSnapshot → DataM → DataM
  translate : DesignTranslation → DataM → DataM × Bool
  rotate : DesignRotation → DataM → DataM

/-- `Design::apply_operation` (src/design.rs 214-379): dispatch an
`UndoableOp`, returning the mutated data and the `OperationResult`.
The four strand-topology arms (`RmStrand`, `Cut`, `Xover`, `CrossCut`)
snapshot the strand state before and after and return `BigChange`; the
`Translation` arm returns `NoChange` when `apply_translation` reports no
effect; every other arm falls through to `UndoableChange`.
`builder.reset()`/`builder.update()` act on the cloned builder only and
have no effect on the data, so they vanish in the embedding. -/
def Design.apply_operation (ops : DataOps) (d : DataM) : UndoableOp → DataM × OperationResult
  | .Rotation rotation => (ops.rotate rotation d, .UndoableChange)
  | .Translation translation =>
    let r := ops.translate translation d
    (r.1, if r.2 then .UndoableChange else .NoChange)
  | .MakeAllGrids => (ops.create_grids d, .UndoableChange)
  | .AddGridHelix desc position length =>
    (ops.build_helix_grid desc.grid_id desc.x desc.y position length d, .UndoableChange)
  | .RmGridHelix desc position length =>
    let d1 := if 0 < length then ops.rm_full_helix_grid desc.grid_id desc.x desc.y position d else d
    (ops.rm_helix_grid desc.grid_id desc.x desc.y d1, .UndoableChange)
  | .RmStrand strand strand_id undo =>
    let init := Data.get_strand_state d
    let d1 := ops.undoable_rm_strand strand strand_id undo d
    (d1, .BigChange init (Data.get_strand_state d1))
  | .RmGrid => (ops.delete_last_grid d, .UndoableChange)
  | .AddGrid descriptor => (ops.add_grid descriptor d, .UndoableChange)
  | .ResetBuilder builder =>
    (if builder.created_de_novo then ops.rm_strand_containing_nucl builder.moving_end_nucl d
     else d, .UndoableChange)
  | .MoveBuilder builder remake =>
    (match remake with
     | some (s_id, color) => ops.remake_strand builder.initial_nucl s_id color d
     | none => d, .UndoableChange)
  | .RawHelixCreation helix h_id delete =>
    (if delete then ops.remove_helix h_id d else ops.add_helix helix h_id d, .UndoableChange)
  | .Cut nucl strand undo s_id =>
    let init := Data.get_strand_state d
    let d1 := if undo then ops.undo_split strand s_id d else ops.split_strand nucl none d
    (d1, .BigChange init (Data.get_strand_state d1))
  | .Xover strand_5prime strand_3prime prime5_id prime3_id undo =>
    let init := Data.get_strand_state d
    let d1 :=
      if prime5_id = prime3_id then Data.make_cycle prime5_id (!undo) d
      else if undo then ops.undo_merge strand_5prime strand_3prime prime5_id prime3_id d
      else ops.merge_strands prime5_id prime3_id d
    (d1, .BigChange init (Data.get_strand_state d1))
  | .CrossCut source_strand target_strand source_id target_id target_3prime nucl undo =>
    let init := Data.get_strand_state d
    let d1 :=
      if undo then ops.undo_cross_cut source_strand target_strand source_id target_id d
      else ops.cross_cut source_id target_id nucl target_3prime d
    (d1, .BigChange init (Data.get_strand_state d1))
  | .NewHyperboloid position orientation hyperboloid =>
    (ops.add_hyperboloid position orientation hyperboloid d, .UndoableChange)
  | .ClearHyperboloid => (ops.clear_hyperboloid d, .UndoableChange)
  | .NewStrandState state => (ops.new_strand_state state d, .UndoableChange)
  | .ResetCopyPaste => (ops.reset_copy_paste d, .UndoableChange)
  | .UndoGridSimulation initial_state => (ops.undo_grid_simulation initial_state d, .UndoableChange)
  | .UndoHelixSimulation initial_state => (ops.undo_helix_simulation initial_state d, .UndoableChange)

/-- The claim's list of strand-topology-altering variants (spec §4.1):
`Cut`, `Xover`, `CrossCut`, `RmStrand`. -/
def UndoableOp.altersStrandTopology : UndoableOp → Bool
  | .Cut _ _ _ _ => true
  | .Xover _ _ _ _ _ => true
  | .CrossCut _ _ _ _ _ _ _ => true
  | .RmStrand _ _ _ => true
  | _ => false

/-- A trivial instantiation of the abstract `Data` transformers, used
only to exercise theorems on concrete inputs. -/
def trivialDataOps : DataOps where
  create_grids := id
  build_helix_grid := fun _ _ _ _ _ d => d
  rm_full_helix_grid := fun _ _ _ _ d => d
  rm_helix_grid := fun _ _ _ d => d
  undoable_rm_strand := fun _ _ _ d => d
  delete_last_grid := id
  add_grid := fun _ d => d
  rm_strand_containing_nucl := fun _ d => d
  remake_strand := fun _ _ _ d => d
  remove_helix := fun _ d => d
  add_helix := fun _ _ d => d
  split_strand := fun _ _ d => d
  undo_split := fun _ _ d => d
  merge_strands := fun _ _ d => d
  undo_merge := fun _ _ _ _ d => d
  cross_cut := fun _ _ _ _ d => d
  undo_cross_cut := fun _ _ _ _ d => d
  add_hyperboloid := fun _ _ _ d => d
  clear_hyperboloid := id
  new_strand_state := fun _ d => d
  reset_copy_paste := id
  undo_grid_simulation := fun _ d => d
  undo_helix_simulation := fun _ d => d
  translate := fun _ d => (d, true)
  rotate := fun _ d => d

/-! ## C7 — 3D scene state machine: double-click timing and drag threshold
(src/scene/controller/automata.rs)

`Instant`s are modelled as whole milliseconds (`Nat`); the elapsed time
`(now - click_date).as_millis()` is the truncated subtraction.  `f64`
cursor positions are modelled over `ℚ`.  The environment probed by
`NormalState::input` (pixel reader result, modifier keys, pasting flag,
action mode, grid intersection) is passed as arguments; the in-place
`self.mouse_position` update of the `CursorMoved` arms is returned
explicitly where the claim needs it. -/

/-- `winit::PhysicalPosition<f64>` over `ℚ`. -/
structure PhysPosition where
  x : ℚ
  y : ℚ
deriving DecidableEq, Repr

/-- `position_difference` (src/scene/controller/automata.rs 910-912):
Chebyshev distance in physical pixels. -/
def position_difference (a b : PhysPosition) : ℚ :=
  max |a.x - b.x| |a.y - b.y|

/-- Modelled from the spec: `SceneElement` — the pick-element identifier
consumed by the controller (§4.6); its defining module is not under
`src/`, so the variants are read off their uses in automata.rs. -/
inductive SceneElement where
  | Nucleotide (design_id : Nat) (id : Nat)
  | DesignElement (design_id : Nat) (id : Nat)
  | WidgetElement (id : Nat)
  | Grid (design_id : Nat) (grid_id : Nat)
  | GridCircle (design_id : Nat) (grid_id : Nat) (x y : Int)
  | PhantomElement (id : Nat)
deriving DecidableEq, Repr

/-- Modelled from the spec: the result of `View::grid_intersection`
(§4.6); not under `src/`. -/
structure GridIntersection where
  grid_id : Nat
  x : Int
  y : Int
deriving DecidableEq, Repr

/-- Modelled from the spec: the mediator `ActionMode` as consumed by
automata.rs (`is_build`, the `BuildHelix{position, length}` pattern);
not under `src/`. -/
inductive ActionMode where
  | Normal
  | BuildHelix (position : Int) (length : Nat)
deriving DecidableEq, Repr

/-- `ActionMode::is_build`. -/
def ActionMode.is_build : ActionMode → Bool
  | .BuildHelix _ _ => true
  | .Normal => false

/-- Modelled from the spec: widget handle ids (scene view constants, not
under `src/`; only their distinctness matters here). -/
def UP_HANDLE_ID : Nat := 0

def DIR_HANDLE_ID : Nat := 1

def RIGHT_HANDLE_ID : Nat := 2

def RIGHT_CIRCLE_ID : Nat := 3

def FRONT_CIRCLE_ID : Nat := 4

def UP_CIRCLE_ID : Nat := 5

/-- `HandleDir` (translation widget axes). -/
inductive HandleDir where
  | up
  | dir
  | right
deriving DecidableEq, Repr

/-- Modelled from the spec: `HandleDir::from_widget_id`; not under
`src/`. -/
def HandleDir.from_widget_id (n : Nat) : HandleDir :=
  if n = UP_HANDLE_ID then .up else if n = DIR_HANDLE_ID then .dir else .right

/-- `RotationMode` (rotation widget circles). -/
inductive RotationMode where
  | right
  | front
  | up
deriving DecidableEq, Repr

/-- Modelled from the spec: `RotationMode::from_widget_id`; not under
`src/`. -/
def RotationMode.from_widget_id (n : Nat) : RotationMode :=
  if n = RIGHT_CIRCLE_ID then .right else if n = FRONT_CIRCLE_ID then .front else .up

/-- The mouse buttons distinguished by the controller. -/
inductive MouseButton where
  | left
  | middle
  | right
  | other
deriving DecidableEq, Repr

/-- `winit::ElementState`. -/
inductive ElementState where
  | Pressed
  | Released
deriving DecidableEq, Repr

/-- The window events the embedded arms match on (`CursorMoved` carries
its position through the separate `position` argument, as in the Rust
signature). -/
inductive WindowEvent where
  | CursorMoved
  | MouseInput (state : ElementState) (button : MouseButton)
  | Other
deriving DecidableEq, Repr

/-- A design-space position carried by the `Xovering` state (f32 `Vec3`),
over `ℚ` so that states stay decidable. -/
structure ScenePos3 where
  x : ℚ
  y : ℚ
  z : ℚ
deriving DecidableEq, Repr

/-- The state data of `WaitDoubleClick`
(src/scene/controller/automata.rs 552-557). -/
structure WaitDoubleClickData where
  click_date : Nat
  element : Option SceneElement
  mouse_position : PhysPosition
  clicked_position : PhysPosition
deriving DecidableEq, Repr

/-- The closed state set of the 3D controller state machine
(src/scene/controller/automata.rs), holding each state's fields. -/
inductive SceneControllerState where
  | NormalState (mouse_position : PhysPosition)
  | TranslatingCamera (mouse_position clicked_position : PhysPosition)
      (button_pressed : MouseButton)
  | SettingPivot (mouse_position clicked_position : PhysPosition)
  | RotatingCamera (clicked_position : PhysPosition) (button_pressed : MouseButton)
  | Selecting (mouse_position clicked_position : PhysPosition)
      (element : Option SceneElement) (click_date : Nat) (adding : Bool)
  | WaitDoubleClickState (s : WaitDoubleClickData)
  | TranslatingWidget (direction : HandleDir)
  | RotatingWidget (rotation_mode : RotationMode)
  | BuildingStrand (builder : StrandBuilder)
  | Xovering (source_element : Option SceneElement) (source_position : ScenePos3)
  | BuildingHelix (position_helix : Int) (length_helix : Nat) (x_helix y_helix : Int)
      (grid_id : Nat) (design_id : Nat) (clicked_position : PhysPosition)
  | Pasting (clicked_position : PhysPosition) (element : Option SceneElement)
deriving DecidableEq

/-- The `Consequence` variants produced by the embedded arms (the full
enum lives in the controller module, not under `src/`). -/
inductive Consequence where
  | Nothing
  | PasteCandidate (element : Option SceneElement)
  | Candidate (element : Option SceneElement)
  | InitTranslation (x y : ℚ)
  | InitRotation (x y : ℚ)
  | DoubleClick (element : Option SceneElement)
  | ElementSelected (element : Option SceneElement) (adding : Bool)
deriving DecidableEq, Repr

/-- `Transition` (src/scene/controller/automata.rs 32-35). -/
structure Transition where
  new_state : Option SceneControllerState
  consequences : Consequence
deriving DecidableEq

/-- `Transition::nothing`. -/
def Transition.nothing : Transition := ⟨none, .Nothing⟩

/-- `Transition::consequence`. -/
def Transition.consequence (c : Consequence) : Transition := ⟨none, c⟩

/-- `NormalState::input` (src/scene/controller/automata.rs 82-291).  The
environment reads (`controller.pasting`, modifiers, the pixel reader's
element, the action mode, the grid intersection, the drawing-area size)
are passed as arguments; `now` stands for `Instant::now()` taken when a
`Selecting` state is created. -/
def normalStateInput (self_mouse_position : PhysPosition) (event : WindowEvent)
    (position : PhysPosition) (pasting alt shift ctrl : Bool)
    (selected : Option SceneElement) (action_mode : ActionMode)
    (grid_intersection : Option GridIntersection)
    (area_width area_height : ℚ) (now : Nat) : Transition :=
  match event with
  | .CursorMoved =>
    if pasting then Transition.consequence (.PasteCandidate selected)
    else
      if action_mode.is_build then
        match selected with
        | some (.Grid d_id _) =>
          let candidate := match grid_intersection with
            | some i => some (SceneElement.GridCircle d_id i.grid_id i.x i.y)
            | none => selected
          Transition.consequence (.Candidate candidate)
        | _ => Transition.consequence (.Candidate selected)
      else Transition.consequence (.Candidate selected)
  | .MouseInput .Pressed .left =>
    if alt then
      { new_state := some (.TranslatingCamera self_mouse_position self_mouse_position .left),
        consequences := .Nothing }
    else if pasting then
      { new_state := some (.Pasting position selected), consequences := .Nothing }
    else
      match selected with
      | some (.Grid d_id g_id) =>
        (match action_mode with
         | .BuildHelix helix_position length =>
           (match grid_intersection with
            | some i =>
              { new_state := some (.BuildingHelix helix_position length i.x i.y
                  i.grid_id d_id position),
                consequences := .Nothing }
            | none =>
              { new_state := some (.Selecting position position
                  (some (.Grid d_id g_id)) now (shift || ctrl)),
                consequences := .Nothing })
         | .Normal =>
           let element := match grid_intersection with
             | some i => some (SceneElement.GridCircle d_id i.grid_id i.x i.y)
             | none => some (SceneElement.Grid d_id g_id)
           { new_state := some (.Selecting position position element now (shift || ctrl)),
             consequences := .Nothing })
      | some (.WidgetElement widget_id) =>
        let mouse_x := position.x / area_width
        let mouse_y := position.y / area_height
        if widget_id = UP_HANDLE_ID ∨ widget_id = DIR_HANDLE_ID ∨ widget_id = RIGHT_HANDLE_ID then
          { new_state := some (.TranslatingWidget (HandleDir.from_widget_id widget_id)),
            consequences := .InitTranslation mouse_x mouse_y }
        else if widget_id = RIGHT_CIRCLE_ID ∨ widget_id = FRONT_CIRCLE_ID ∨
            widget_id = UP_CIRCLE_ID then
          { new_state := some (.RotatingWidget (RotationMode.from_widget_id widget_id)),
            consequences := .InitRotation mouse_x mouse_y }
        else Transition.nothing
      | _ =>
        { new_state := some (.Selecting position position selected now (shift || ctrl)),
          consequences := .Nothing }
  | .MouseInput .Pressed .middle =>
    if ctrl then
      { new_state := some (.RotatingCamera position .middle), consequences := .Nothing }
    else
      { new_state := some (.TranslatingCamera self_mouse_position self_mouse_position .middle),
        consequences := .Nothing }
  | .MouseInput .Pressed .right =>
    { new_state := some (.SettingPivot position position), consequences := .Nothing }
  | _ => Transition.nothing

/-- `WaitDoubleClick::check_timers`
(src/scene/controller/automata.rs 560-572): after strictly more than
250 ms, revert to `NormalState` with no consequence. -/
def WaitDoubleClick.check_timers (s : WaitDoubleClickData) (now : Nat) : Transition :=
  if now - s.click_date > 250 then
    { new_state := some (.NormalState s.mouse_position), consequences := .Nothing }
  else Transition.nothing

/-- `WaitDoubleClick::input`
(src/scene/controller/automata.rs 578-611): a left release emits
`DoubleClick`; a cursor move beyond the 5-pixel Chebyshev threshold
reverts to `NormalState`; the updated state (the `self.mouse_position`
write) is returned alongside the transition. -/
def WaitDoubleClick.input (s : WaitDoubleClickData) (event : WindowEvent)
    (position : PhysPosition) : WaitDoubleClickData × Transition :=
  match event with
  | .MouseInput .Released .left =>
    (s, { new_state := some (.NormalState s.mouse_position),
          consequences := .DoubleClick s.element })
  | .CursorMoved =>
    let s2 := { s with mouse_position := position }
    if position_difference position s.clicked_position > 5 then
      (s2, { new_state := some (.NormalState s2.mouse_position), consequences := .Nothing })
    else (s2, Transition.nothing)
  | _ => (s, Transition.nothing)

/-! ## C8 — roll/spring relaxation rest-length formula
(src/design/data/roller.rs 119-129) -/

/-- `angle_aoc2` (src/design/data/roller.rs 119-121). -/
noncomputable def angle_aoc2 (p : Parameters) : ℝ :=
  2 * Real.pi / p.bases_per_turn

/-- `dist_ac2` (src/design/data/roller.rs 127-129); `SQRT_2` is the f32
constant for `√2`. -/
noncomputable def dist_ac2 (p : Parameters) : ℝ :=
  Real.sqrt 2 * Real.sqrt (1 - Real.cos (angle_aoc2 p)) * p.helix_radius

/-- `dist_ac` (src/design/data/roller.rs 123-125). -/
noncomputable def dist_ac (p : Parameters) : ℝ :=
  Real.sqrt (dist_ac2 p * dist_ac2 p + p.z_step * p.z_step)

/-- The spec's closed form for the chord `dist_ac2`
(`√2 · √(1 − cos(2π/bases_per_turn)) · helix_radius`), written from the
spec's words for comparison with the implementation. -/
noncomputable def specDistAc2 (p : Parameters) : ℝ :=
  Real.sqrt 2 * (Real.sqrt (1 - Real.cos (2 * Real.pi / p.bases_per_turn)) * p.helix_radius)

/-- The spec's closed form `dist_ac = sqrt(dist_ac2² + z_step²)`, written
from the spec's words for comparison with the implementation. -/
noncomputable def specDistAc (p : Parameters) : ℝ :=
  Real.sqrt (specDistAc2 p ^ 2 + p.z_step ^ 2)

/-! ## C4 — rigid-body anchor springs
(src/design/data/rigid_body.rs 96-98 and 168-193)

In `HelixSystem::forces_and_torques` the anchor loop computes, for an
anchored nucleotide whose converted space position is `point_0` and whose
recorded anchor position is `position`:
  `force = k_spring * k_anchor * -(point_0 - position)`  (when the
distance exceeds `1e-5`, else zero), and adds `10. * force` into the
forces accumulator.  The loop body is embedded with `point_0` as an
argument (`point_conversion` only produces it). -/

/-- `k_anchor` (src/design/data/rigid_body.rs 98). -/
noncomputable def k_anchor (k_spring : ℝ) : ℝ := 1000 * k_spring

/-- The anchor force of src/design/data/rigid_body.rs 170-175: zero below
the `1e-5` distance guard, else
`k_spring * k_anchor * -(point_0 - position)`. -/
noncomputable def anchorForce (k_spring : ℝ) (point_0 anchor_position : Vec3) : Vec3 :=
  if (point_0 - anchor_position).mag > 1e-5 then
    (k_spring * k_anchor k_spring) • (-(point_0 - anchor_position))
  else 0

/-- The contribution actually added to the forces accumulator for an
anchor (src/design/data/rigid_body.rs 177 and 192): `10. * force`. -/
noncomputable def anchorForceContribution (k_spring : ℝ) (point_0 anchor_position : Vec3) : Vec3 :=
  (10 : ℝ) • anchorForce k_spring point_0 anchor_position

/-! ## C9 — minimum distance between segments
(src/design/data/roller.rs 415-532)

`distance_segment` first takes a near-parallel fast path when the
direction cross product is small, then solves the 2×2 system for the two
nearest-point parameters; when the unconstrained solution lies in
`[0,1]²` it returns that distance, otherwise it scans the four clamped
boundary trials.  `f32::INFINITY` (the initial `min_dist`) is modelled as
the `none` of an `Option ℝ` (every comparison against it succeeds); the
unreachable "no candidate" fall-through returns distance 0. -/

/-- The boundary-scan state update
(`if min_dist > vec.mag() { min_dist = vec.mag(); min_vec = vec; }`). -/
noncomputable def fbUpd (st : Option ℝ × Vec3) (cand : Vec3) : Option ℝ × Vec3 :=
  match st.1 with
  | none => (some cand.mag, cand)
  | some dcur => if dcur > cand.mag then (some cand.mag, cand) else st

/-- `min_dist = min_dist.min(m)` (the second boundary block keeps
`min_vec` unchanged there, reproducing roller.rs 466). -/
noncomputable def fbMin (st : Option ℝ × Vec3) (m : ℝ) : Option ℝ × Vec3 :=
  match st.1 with
  | none => (some m, st.2)
  | some dcur => (some (min dcur m), st.2)

/-- The unconstrained `mu` of the 2×2 system (roller.rs 430-431). -/
noncomputable def dsMu0 (a b c d : Vec3) : ℝ :=
  (-((c - a).dot (d - c)) -
      (b - a).dot (d - c) / (b - a).mag_sq * ((a - c).dot (b - a))) /
    ((d - c).mag_sq - (b - a).dot (d - c) / (b - a).mag_sq * ((b - a).dot (d - c)))

/-- The unconstrained `lambda` of the 2×2 system (roller.rs 433). -/
noncomputable def dsLambda0 (a b c d : Vec3) : ℝ :=
  (-((a - c).dot (b - a)) + dsMu0 a b c d * ((b - a).dot (d - c))) / (b - a).mag_sq

/-- The boundary scan of roller.rs 438-531 (`lambda = 0`, `lambda = 1`,
`mu = 0`, `mu = 1` trials, each clamped or replaced by its two
endpoints). -/
noncomputable def dsFallback (a b c d : Vec3) : ℝ × Vec3 :=
  let u := b - a
  let v := d - c
  let muA := -((c - a).dot v) / v.mag_sq
  let stA :=
    if 0 ≤ muA ∧ muA ≤ 1 then fbUpd (none, 0) ((a + u * (0 : ℝ)) - (c + v * muA))
    else fbUpd (fbUpd (none, 0) ((a + u * (0 : ℝ)) - (c + v * (0 : ℝ))))
      ((a + u * (0 : ℝ)) - (c + v * (1 : ℝ)))
  let muB := (-((c - a).dot v) + u.dot v) / v.mag_sq
  let stB :=
    if 0 ≤ muB ∧ muB ≤ 1 then
      fbUpd (fbMin stA ((a + u * (1 : ℝ)) - (c + v * muB)).mag) ((a + u * (1 : ℝ)) - (c + v * muB))
    else fbUpd (fbUpd stA ((a + u * (1 : ℝ)) - (c + v * (0 : ℝ))))
      ((a + u * (1 : ℝ)) - (c + v * (1 : ℝ)))
  let lamC := (-((a - c).dot u) + (0 : ℝ) * (u.dot v)) / u.mag_sq
  let stC :=
    if 0 ≤ lamC ∧ lamC ≤ 1 then fbUpd stB ((a + u * lamC) - (c + v * (0 : ℝ)))
    else fbUpd (fbUpd stB ((a + u * (0 : ℝ)) - (c + v * (0 : ℝ))))
      ((a + u * (1 : ℝ)) - (c + v * (0 : ℝ)))
  let lamD := (-((a - c).dot u) + (1 : ℝ) * (u.dot v)) / u.mag_sq
  let stD :=
    if 0 ≤ lamD ∧ lamD ≤ 1 then fbUpd stC ((a + u * lamD) - (c + v * (1 : ℝ)))
    else fbUpd (fbUpd stC ((a + u * (0 : ℝ)) - (c + v * (1 : ℝ))))
      ((a + u * (1 : ℝ)) - (c + v * (1 : ℝ)))
  match stD.1 with
  | some dmin => (dmin, stD.2)
  | none => (0, stD.2)

/-- `distance_segment` (src/design/data/roller.rs 415-532). -/
noncomputable def distance_segment (a b c d : Vec3) : ℝ × Vec3 :=
  if ((b - a).cross (d - c)).mag < 1e-5 then ((a - c).mag, a - c)
  else
    if 0 ≤ dsMu0 a b c d ∧ dsMu0 a b c d ≤ 1 ∧ 0 ≤ dsLambda0 a b c d ∧ dsLambda0 a b c d ≤ 1 then
      (((a + (b - a) * dsLambda0 a b c d) - (c + (d - c) * dsMu0 a b c d)).mag,
        (a + (b - a) * dsLambda0 a b c d) - (c + (d - c) * dsMu0 a b c d))
    else dsFallback a b c d

/-! ## C10 — `SpringSystem::update_acceleration` and the `nb_helices - 1`
loop bound (src/design/data/roller.rs 307-363)

The pairwise-collision loop iterates `for i in 0..(nb_helices - 1)` in
unsigned (usize) arithmetic.  `usizeSub` models that subtraction: on
underflow (empty helices list) the call is not safe — a debug build
panics on the subtraction, a release build wraps and then indexes
`intervals[0]` out of bounds — modelled as `none`.  Every Rust index and
`unwrap` of the method is likewise checked, so `update_acceleration`
returns `Option SpringSystem`. -/

/-- `MASS_HELIX` (roller.rs 26). -/
noncomputable def MASS_HELIX : ℝ := 2

/-- `K_SPRING` (roller.rs 27). -/
noncomputable def K_SPRING : ℝ := 1000

/-- `FRICTION` (roller.rs 28). -/
noncomputable def FRICTION : ℝ := 100

/-- `spring_force` (roller.rs 265-287).  The third component is the
`*time_scale = true` signal (`real_dist > dist_ac * 10`), OR-ed by the
caller; the division by `real_dist` is the code's (for coincident
nucleotides the f32 code produces NaN, the real-valued model the junk
value 0). -/
noncomputable def spring_force (me other : Helix) (parameters : Parameters)
    (n_self : Int) (b_self : Bool) (n_other : Int) (b_other : Bool) : Vec3 × Vec3 × Bool :=
  let nucl_self := me.space_pos parameters n_self b_self
  let nucl_other := other.space_pos parameters n_other b_other
  let real_dist := (nucl_self - nucl_other).mag
  let norm := K_SPRING * (real_dist - dist_ac parameters) / real_dist
  (norm • (nucl_other - nucl_self), norm • (nucl_self - nucl_other),
    real_dist > dist_ac parameters * 10)

/-- `DesignData` (roller.rs 406-412); the `HashMap<usize, usize>`
`helix_map` is modelled as a partial function. -/
structure DesignData where
  helices : List Helix
  helix_map : Nat → Option Nat
  xovers : List (Nucl × Nucl)
  parameters : Parameters
  intervals : List (Option (Int × Int))

/-- `SpringSystem` (roller.rs 289-293). -/
structure SpringSystem where
  speed : List Vec3
  acceleration : List Vec3
  time_scale : ℝ

/-- `SpringSystem::new` (roller.rs 297-305). -/
noncomputable def SpringSystem.new (nb_helices : Nat) : SpringSystem :=
  ⟨List.replicate nb_helices 0, List.replicate nb_helices 0, 1⟩

/-- Rust usize subtraction: `none` on underflow (debug panic; in release
it wraps and the following indexing panics). -/
def usizeSub (a b : Nat) : Option Nat := if b ≤ a then some (a - b) else none

/-- The friction initialization loop (roller.rs 308-310):
`acceleration[i] = -speed[i] * FRICTION / MASS_HELIX` for
`i in 0..acceleration.len()`. -/
noncomputable def sfFrictionStage (sys : SpringSystem) : Option (List Vec3) :=
  (List.range sys.acceleration.length).foldlM
    (fun acc i => (sys.speed.get? i).map (fun s => acc.set i (((-s) * FRICTION) / MASS_HELIX)))
    sys.acceleration

/-- One iteration of the cross-over loop (roller.rs 312-332): look the
two nucleotides' helices up in `helix_map` (`.unwrap()`), index
`helices`, apply `spring_force`, and accumulate into `acceleration`. -/
noncomputable def sfXoverStep (data : DesignData) (st : List Vec3 × Bool) (pair : Nucl × Nucl) :
    Option (List Vec3 × Bool) := do
  let h1 ← data.helix_map pair.1.helix
  let h2 ← data.helix_map pair.2.helix
  let me ← data.helices.get? h1
  let other ← data.helices.get? h2
  let res := spring_force me other data.parameters pair.1.position pair.1.forward
    pair.2.position pair.2.forward
  let a1 ← st.1.get? h1
  let acc1 := st.1.set h1 (a1 + res.1 / MASS_HELIX)
  let a2 ← acc1.get? h2
  pure (acc1.set h2 (a2 + res.2.1 / MASS_HELIX), st.2 || res.2.2)

/-- The inner collision loop body (roller.rs 344-358): skip helices with
no interval, else penalize segment pairs closer than `r`. -/
noncomputable def sfCollisionInner (data : DesignData) (r : ℝ) (i : Nat) (aPt bPt : Vec3)
    (acc : List Vec3) (j : Nat) : Option (List Vec3) := do
  let ivj ← data.intervals.get? j
  match ivj with
  | none => pure acc
  | some jv => do
    let hj ← data.helices.get? j
    let cPt := hj.axis_position data.parameters jv.1
    let dPt := hj.axis_position data.parameters jv.2
    let dv := distance_segment aPt bPt cPt dPt
    if dv.1 < r then do
      let norm := ((dv.1 - r) / dv.1) ^ 4 / MASS_HELIX * 100000
      let ai ← acc.get? i
      let acc2 := acc.set i (ai + norm • dv.2)
      let aj ← acc2.get? j
      pure (acc2.set j (aj + (-norm) • dv.2))
    else pure acc

/-- The outer collision loop body (roller.rs 338-359). -/
noncomputable def sfCollisionOuter (data : DesignData) (r : ℝ) (nb_helices : Nat)
    (acc : List Vec3) (i : Nat) : Option (List Vec3) := do
  let ivi ← data.intervals.get? i
  match ivi with
  | none => pure acc
  | some iv => do
    let hi ← data.helices.get? i
    let aPt := hi.axis_position data.parameters iv.1
    let bPt := hi.axis_position data.parameters iv.2
    (List.range' (i + 1) (nb_helices - (i + 1))).foldlM (sfCollisionInner data r i aPt bPt) acc

/-- `SpringSystem::update_acceleration` (roller.rs 307-363), with every
index, `unwrap` and the `nb_helices - 1` usize subtraction checked. -/
noncomputable def SpringSystem.update_acceleration (sys : SpringSystem) (data : DesignData) :
    Option SpringSystem := do
  let accel0 ← sfFrictionStage sys
  let p ← data.xovers.foldlM (sfXoverStep data) (accel0, false)
  let bound ← usizeSub data.helices.length 1
  let accel2 ← (List.range bound).foldlM
    (sfCollisionOuter data (2 * data.parameters.helix_radius + data.parameters.inter_helix_gap)
      data.helices.length) p.1
  pure { sys with acceleration := accel2, time_scale := if p.2 then 10 else sys.time_scale }

/-- A one-body helix used to exercise C10. -/
noncomputable def exampleHelix : Helix := ⟨0, fun _ _ _ => 0, fun _ _ => 0⟩

/-- Geometry constants for the C10 instantiations. -/
noncomputable def exampleParameters : Parameters := ⟨1, 1, 10, 1⟩

/-- A one-helix design with no cross-overs and no interval. -/
noncomputable def exampleDesignData : DesignData :=
  ⟨[exampleHelix], fun _ => none, [], exampleParameters, [none]⟩

/-- The empty design (no helices). -/
noncomputable def exampleEmptyData : DesignData :=
  ⟨[], fun _ => none, [], exampleParameters, []⟩

theorem lastDotIdx_decomposition :
    ∀ (name : List Char) (i : Nat), lastDotIdx name = some i →
      i < name.length ∧ name.take i ++ '.' :: name.drop (i + 1) = name := by
  intro name
  induction name with
  | nil => intro i h; simp [lastDotIdx] at h
  | cons c cs ih =>
    intro i h
    simp only [lastDotIdx] at h
    cases hcs : lastDotIdx cs with
    | some j =>
      rw [hcs] at h
      obtain ⟨hlt, hdec⟩ := ih j hcs
      cases h
      constructor
      · simpa using Nat.succ_lt_succ hlt
      · simpa [List.take, List.drop] using hdec
    | none =>
      rw [hcs] at h
      by_cases hc : c = '.'
      · simp [hc] at h
        cases h
        simp [hc]
      · simp [hc] at h

/-- When a file name has an extension, the name splits as
`stem ++ '.' :: ext`. -/
theorem fileExtension_decomposition (name ext : List Char)
    (h : fileExtension name = some ext) :
    (splitFileAtDot name).1 ++ '.' :: ext = name := by
  unfold fileExtension splitFileAtDot at *
  by_cases hdd : name = ['.', '.']
  · simp [hdd] at h
  · simp only [hdd, if_false] at h ⊢
    cases hidx : lastDotIdx name with
    | none => rw [hidx] at h; simp at h
    | some i =>
      rw [hidx] at h
      cases i with
      | zero => simp at h
      | succ k =>
        have hext2 : ext = name.drop (k + 1 + 1) := by
          have h2 : some (name.drop (k + 1 + 1)) = some ext := h
          exact (Option.some_inj.mp h2).symm
        obtain ⟨_, hdec⟩ := lastDotIdx_decomposition name (k + 1) hidx
        show name.take (k + 1) ++ '.' :: ext = name
        rw [hext2]
        exact hdec

/-- When a file name has no extension, the stem is the whole name. -/
theorem splitFileAtDot_stem_of_no_ext (name : List Char)
    (h : fileExtension name = none) : (splitFileAtDot name).1 = name := by
  unfold fileExtension splitFileAtDot at *
  by_cases hdd : name = ['.', '.']
  · simp [hdd]
  · simp only [hdd, if_false] at h ⊢
    cases hidx : lastDotIdx name with
    | none => rfl
    | some i =>
      cases i with
      | zero => rfl
      | succ k => rw [hidx] at h; simp at h

/-- Claim C5: `FileSaveRequested` normalizes the chosen save path: a name
with no extension or with an extension other than `json` gets `.json`
appended to the whole name (so `foo` becomes `foo.json` and `foo.txt`
becomes `foo.txt.json`), while a name whose extension is already `json`
is left unchanged; in particular on the three sample names `design`,
`design.txt` and `design.json`. -/
theorem file_save_normalize_forces_json (name : List Char) :
    (fileExtension name = some ['j', 's', 'o', 'n'] → fileSaveNormalize name = name) ∧
    (fileExtension name ≠ some ['j', 's', 'o', 'n'] →
      fileSaveNormalize name = name ++ '.' :: ['j', 's', 'o', 'n']) ∧
    fileSaveNormalize ("design".toList) = ("design.json".toList) ∧
    fileSaveNormalize ("design.txt".toList) = ("design.txt.json".toList) ∧
    fileSaveNormalize ("design.json".toList) = ("design.json".toList) := by
  refine ⟨?_, ?_, by decide, by decide, by decide⟩
  · intro h
    unfold fileSaveNormalize
    rw [h]
    simp
  · intro h
    unfold fileSaveNormalize
    cases hext : fileExtension name with
    | none =>
      have hstem := splitFileAtDot_stem_of_no_ext name hext
      unfold setExtension
      rw [hstem]
      simp
    | some e =>
      have hne : e ≠ ['j', 's', 'o', 'n'] := by
        intro he; exact h (by rw [hext, he])
      have hdec := fileExtension_decomposition name e hext
      unfold setExtension
      simp only [hne, if_false]
      have hnonempty : (e ++ '.' :: ['j', 's', 'o', 'n']) ≠ [] := by
        simp
      rw [if_neg hnonempty]
      calc (splitFileAtDot name).1 ++ '.' :: (e ++ '.' :: ['j', 's', 'o', 'n'])
      _ = ((splitFileAtDot name).1 ++ '.' :: e) ++ '.' :: ['j', 's', 'o', 'n'] := by
        simp
      _ = name ++ '.' :: ['j', 's', 'o', 'n'] := by rw [hdec]

/-- Witness for C5 at the concrete name `design.txt`. -/
theorem file_save_normalize_forces_json_witness :
    fileSaveNormalize ("design.txt".toList) = ("design.txt".toList) ++ '.' :: ['j', 's', 'o', 'n'] :=
  (file_save_normalize_forces_json ("design.txt".toList)).2.1 (by decide)

theorem foldl_hexStep_none : ∀ (ds : List Char), ds.foldl hexStep none = none := by
  intro ds
  induction ds with
  | nil => rfl
  | cons c cs ih =>
    rw [List.foldl_cons]
    exact ih

theorem parseHexDigits_of_bad_digit :
    ∀ (ds : List Char) (acc : Option Nat) (x : Char), x ∈ ds → hexDigitVal x = none →
      ds.foldl hexStep acc = none := by
  intro ds
  induction ds with
  | nil => intro acc x hx; simp at hx
  | cons c cs ih =>
    intro acc x hx hbad
    rcases List.mem_cons.mp hx with hx | hx
    · subst hx
      rw [List.foldl_cons]
      have hnone : hexStep acc x = none := by
        cases acc with
        | none => rfl
        | some a =>
          show (match hexDigitVal x with
            | none => none
            | some d => if a * 16 + d < 2 ^ 32 then some (a * 16 + d) else none) = none
          rw [hbad]
      rw [hnone]
      exact foldl_hexStep_none cs
    · exact ih (hexStep acc c) x hx hbad

theorem hexDigitVal_lt_16 (c : Char) (d : Nat) (h : hexDigitVal c = some d) : d < 16 := by
  unfold hexDigitVal at h
  by_cases h1 : 48 ≤ c.toNat ∧ c.toNat ≤ 57
  · rw [if_pos h1] at h; injection h with h2; omega
  · rw [if_neg h1] at h
    by_cases h2 : 97 ≤ c.toNat ∧ c.toNat ≤ 102
    · rw [if_pos h2] at h; injection h with h3; omega
    · rw [if_neg h2] at h
      by_cases h3 : 65 ≤ c.toNat ∧ c.toNat ≤ 70
      · rw [if_pos h3] at h; injection h with h4; omega
      · rw [if_neg h3] at h; exact absurd h (by simp)

theorem parseHexDigits_bound :
    ∀ (ds : List Char) (a : Nat), (∀ c ∈ ds, (hexDigitVal c).isSome) →
      16 ^ ds.length * (a + 1) ≤ 2 ^ 32 →
      ∃ n, ds.foldl hexStep (some a) = some n ∧ n < 16 ^ ds.length * (a + 1) := by
  intro ds
  induction ds with
  | nil =>
    intro a _ _
    exact ⟨a, rfl, by simp⟩
  | cons c cs ih =>
    intro a hdigits hbound
    obtain ⟨d, hd⟩ := Option.isSome_iff_exists.mp (hdigits c (List.mem_cons_self c cs))
    have hd16 : d < 16 := hexDigitVal_lt_16 c d hd
    have hpow1 : (1 : Nat) ≤ 16 ^ cs.length := Nat.one_le_pow _ _ (by norm_num)
    have hlen : (16 : Nat) ^ (c :: cs).length = 16 ^ cs.length * 16 := by
      simp [List.length_cons, pow_succ]
    have hbound' : 16 ^ cs.length * (16 * (a + 1)) ≤ 2 ^ 32 := by
      calc 16 ^ cs.length * (16 * (a + 1)) = 16 ^ (c :: cs).length * (a + 1) := by
            rw [hlen]; ring
        _ ≤ 2 ^ 32 := hbound
    have h16a : 16 * (a + 1) ≤ 2 ^ 32 := by
      refine le_trans ?_ hbound'
      calc 16 * (a + 1) = 1 * (16 * (a + 1)) := by ring
        _ ≤ 16 ^ cs.length * (16 * (a + 1)) := Nat.mul_le_mul hpow1 (le_refl _)
    have hlit : (2 : Nat) ^ 32 = 4294967296 := by norm_num
    have hoverflow : a * 16 + d < 2 ^ 32 := by
      rw [hlit] at h16a ⊢
      omega
    have hstep : hexStep (some a) c = some (a * 16 + d) := by
      show (match hexDigitVal c with
        | none => none
        | some d => if a * 16 + d < 2 ^ 32 then some (a * 16 + d) else none) = some (a * 16 + d)
      rw [hd]
      exact if_pos hoverflow
    have hbound2 : 16 ^ cs.length * (a * 16 + d + 1) ≤ 2 ^ 32 :=
      le_trans (Nat.mul_le_mul (le_refl _) (by omega)) hbound'
    obtain ⟨n, hn, hnlt⟩ :=
      ih (a * 16 + d) (fun x hx => hdigits x (List.mem_cons_of_mem c hx)) hbound2
    refine ⟨n, ?_, ?_⟩
    · rw [List.foldl_cons, hstep]
      exact hn
    · calc n < 16 ^ cs.length * (a * 16 + d + 1) := hnlt
        _ ≤ 16 ^ cs.length * (16 * (a + 1)) := Nat.mul_le_mul (le_refl _) (by omega)
        _ = 16 ^ (c :: cs).length * (a + 1) := by rw [hlen]; ring

/-- Counterexample for C6: the claim says `color()` never panics and only
returns values produced by the documented 24-bit parse; but on the empty
color string the byte slice `&self.color[1..]` panics (modelled as the
outer `none`), and on `#FFFFFFFF` the parse succeeds with a value that
needs 32 bits. -/
theorem scadnano_color_counterexample :
    ScadnanoStrand.color [] = none ∧
    ScadnanoStrand.color ('#' :: ("FFFFFFFF".toList)) = some (some 4294967295) ∧
    2 ^ 24 ≤ 4294967295 :=
  ⟨rfl, by decide, by norm_num⟩

/-- Claim C6 (amended): on every nonempty color string, `color()` does
not panic and returns exactly `u32::from_str_radix` of the characters
after the first one; any character of the remainder that is not a hex
digit (other than a leading `+`) makes the parse fail, so the color is
absent (the warning-logging path); and a `#` followed by at most six hex
digits — the documented `#RRGGBB` shape — yields a value below `2 ^ 24`.
On the empty string the code panics, and malformed strings longer than
six digits can produce values up to `2 ^ 32 - 1`: see the
counterexample. -/
theorem scadnano_color_amended :
    (∀ (c : Char) (rest : List Char),
      ScadnanoStrand.color (c :: rest) = some (from_str_radix_u32_16 rest)) ∧
    (∀ (c : Char) (rest : List Char) (x : Char), x ∈ rest → hexDigitVal x = none → x ≠ '+' →
      ScadnanoStrand.color (c :: rest) = some none) ∧
    (∀ (ds : List Char), ds ≠ [] → ds.length ≤ 6 → (∀ c ∈ ds, (hexDigitVal c).isSome) →
      ∃ n, ScadnanoStrand.color ('#' :: ds) = some (some n) ∧ n < 2 ^ 24) := by
  refine ⟨fun c rest => rfl, ?_, ?_⟩
  · intro c rest x hx hbad hplus
    show some (from_str_radix_u32_16 rest) = some none
    cases rest with
    | nil => simp at hx
    | cons r rs =>
      show some (if r = '+' then (if rs = [] then none else parseHexDigits rs)
        else parseHexDigits (r :: rs)) = some none
      by_cases hr : r = '+'
      · have hxrs : x ∈ rs := by
          rcases List.mem_cons.mp hx with h | h
          · exact absurd (h.trans hr) hplus
          · exact h
        have hne : rs ≠ [] := List.ne_nil_of_mem hxrs
        rw [if_pos hr, if_neg hne]
        exact congrArg some (parseHexDigits_of_bad_digit rs (some 0) x hxrs hbad)
      · rw [if_neg hr]
        exact congrArg some (parseHexDigits_of_bad_digit (r :: rs) (some 0) x hx hbad)
  · intro ds hne hlen hdigits
    have hdstruct : ∃ h t, ds = h :: t := by
      cases ds with
      | nil => exact absurd rfl hne
      | cons h t => exact ⟨h, t, rfl⟩
    obtain ⟨h, t, rfl⟩ := hdstruct
    have hplus : h ≠ '+' := by
      intro hh
      have hs := hdigits h (List.mem_cons_self h t)
      rw [hh] at hs
      simp [hexDigitVal] at hs
    have hbound : 16 ^ (h :: t).length * (0 + 1) ≤ 2 ^ 32 := by
      have hle : (16 : Nat) ^ (h :: t).length ≤ 16 ^ 6 :=
        Nat.pow_le_pow_right (by norm_num) hlen
      simpa using hle.trans (by norm_num)
    obtain ⟨n, hn, hnlt⟩ := parseHexDigits_bound (h :: t) 0 hdigits hbound
    refine ⟨n, ?_, ?_⟩
    · show some (if h = '+' then (if t = [] then none else parseHexDigits t)
        else parseHexDigits (h :: t)) = some (some n)
      rw [if_neg hplus]
      exact congrArg some hn
    · calc n < 16 ^ (h :: t).length * (0 + 1) := hnlt
        _ ≤ 16 ^ 6 * 1 := by
          have hle : (16 : Nat) ^ (h :: t).length ≤ 16 ^ 6 :=
            Nat.pow_le_pow_right (by norm_num) hlen
          simpa using hle
        _ = 2 ^ 24 := by norm_num

/-- Witness for C6 (amended) at `#z` (malformed) and `#ff00` (well
formed). -/
theorem scadnano_color_amended_witness :
    ScadnanoStrand.color ('#' :: ['z']) = some none ∧
    ∃ n, ScadnanoStrand.color ('#' :: ("ff00".toList)) = some (some n) ∧ n < 2 ^ 24 :=
  ⟨scadnano_color_amended.2.1 '#' ['z'] 'z' (by decide) (by decide) (by decide),
   scadnano_color_amended.2.2 ("ff00".toList) (by decide) (by decide) (by decide)⟩

/-- Claim C3: a `CutCross(from, to)` consequence with `from` and `to` on
the same flat helix never posts a `CrossCut` operation to the mediator,
and a posted `CrossCut` can only arise from a pair on two different
helices. -/
theorem cut_cross_same_helix_rejected
    (cut_cross : FlatNucl → FlatNucl → Option (Nat × Nat × Bool))
    (get_strand : Nat → Option Strand)
    (selected_design : Nat) (fromNucl toNucl : FlatNucl) :
    (fromNucl.helix = toNucl.helix →
      readConsequenceCutCross cut_cross get_strand selected_design fromNucl toNucl = none) ∧
    (∀ op, readConsequenceCutCross cut_cross get_strand selected_design fromNucl toNucl = some op →
      fromNucl.helix ≠ toNucl.helix) := by
  constructor
  · intro heq
    unfold readConsequenceCutCross
    rw [if_neg (by simp [heq])]
  · intro op hop heq
    unfold readConsequenceCutCross at hop
    rw [if_neg (by simp [heq])] at hop
    exact Option.noConfusion hop

/-- Witness for C3: a same-helix pair posts nothing. -/
theorem cut_cross_same_helix_rejected_witness :
    readConsequenceCutCross (fun _ _ => some (0, 1, true)) (fun _ => none) 0
      ⟨⟨0, 0⟩, 0, true⟩ ⟨⟨0, 0⟩, 5, false⟩ = none :=
  (cut_cross_same_helix_rejected (fun _ _ => some (0, 1, true)) (fun _ => none) 0
    ⟨⟨0, 0⟩, 0, true⟩ ⟨⟨0, 0⟩, 5, false⟩).1 rfl

/-- Claim C1: `apply_operation` returns `BigChange` exactly on the four
strand-topology-altering variants (`Cut`, `Xover`, `CrossCut`,
`RmStrand`); `NoChange` exactly when the operation is a `Translation`
whose application reports no effect; and `UndoableChange` on every other
variant. -/
theorem apply_operation_result_classification (ops : DataOps) (d : DataM) (op : UndoableOp) :
    ((Design.apply_operation ops d op).2.isBigChange = op.altersStrandTopology) ∧
    ((Design.apply_operation ops d op).2 = OperationResult.NoChange ↔
      ∃ t, op = UndoableOp.Translation t ∧ (ops.translate t d).2 = false) ∧
    (op.altersStrandTopology = false →
      (∀ t, op = UndoableOp.Translation t → (ops.translate t d).2 = true) →
      (Design.apply_operation ops d op).2 = OperationResult.UndoableChange) := by
  cases op with
  | Translation t =>
    refine ⟨?_, ?_, ?_⟩
    · show (if (ops.translate t d).2 then OperationResult.UndoableChange
        else OperationResult.NoChange).isBigChange = false
      cases htr : (ops.translate t d).2 <;> simp [OperationResult.isBigChange]
    · show (if (ops.translate t d).2 then OperationResult.UndoableChange
        else OperationResult.NoChange) = OperationResult.NoChange ↔ _
      cases htr : (ops.translate t d).2 <;> simp [htr]
    · intro _ hall
      have := hall t rfl
      show (if (ops.translate t d).2 then OperationResult.UndoableChange
        else OperationResult.NoChange) = OperationResult.UndoableChange
      rw [this]
      simp
  | Rotation r => exact ⟨rfl, by simp [Design.apply_operation], fun _ _ => rfl⟩
  | MakeAllGrids => exact ⟨rfl, by simp [Design.apply_operation], fun _ _ => rfl⟩
  | AddGridHelix desc p l => exact ⟨rfl, by simp [Design.apply_operation], fun _ _ => rfl⟩
  | RmGridHelix desc p l => exact ⟨rfl, by simp [Design.apply_operation], fun _ _ => rfl⟩
  | RmStrand s i u => exact ⟨rfl, by simp [Design.apply_operation], by intro h; simp [UndoableOp.altersStrandTopology] at h⟩
  | RmGrid => exact ⟨rfl, by simp [Design.apply_operation], fun _ _ => rfl⟩
  | AddGrid g => exact ⟨rfl, by simp [Design.apply_operation], fun _ _ => rfl⟩
  | ResetBuilder b => exact ⟨rfl, by simp [Design.apply_operation], fun _ _ => rfl⟩
  | MoveBuilder b r =>
    refine ⟨?_, ?_, fun _ _ => ?_⟩ <;> cases r <;> simp [Design.apply_operation, OperationResult.isBigChange, UndoableOp.altersStrandTopology]
  | RawHelixCreation h i del => exact ⟨rfl, by simp [Design.apply_operation], fun _ _ => rfl⟩
  | Cut n s u i => exact ⟨rfl, by simp [Design.apply_operation], by intro h; simp [UndoableOp.altersStrandTopology] at h⟩
  | Xover s5 s3 p5 p3 u => exact ⟨rfl, by simp [Design.apply_operation], by intro h; simp [UndoableOp.altersStrandTopology] at h⟩
  | CrossCut ss ts si ti t3 n u => exact ⟨rfl, by simp [Design.apply_operation], by intro h; simp [UndoableOp.altersStrandTopology] at h⟩
  | NewHyperboloid p o h => exact ⟨rfl, by simp [Design.apply_operation], fun _ _ => rfl⟩
  | ClearHyperboloid => exact ⟨rfl, by simp [Design.apply_operation], fun _ _ => rfl⟩
  | NewStrandState s => exact ⟨rfl, by simp [Design.apply_operation], fun _ _ => rfl⟩
  | ResetCopyPaste => exact ⟨rfl, by simp [Design.apply_operation], fun _ _ => rfl⟩
  | UndoGridSimulation s => exact ⟨rfl, by simp [Design.apply_operation], fun _ _ => rfl⟩
  | UndoHelixSimulation s => exact ⟨rfl, by simp [Design.apply_operation], fun _ _ => rfl⟩

/-- Witness for C1: a non-topology, non-translation operation yields
`UndoableChange`. -/
theorem apply_operation_result_classification_witness :
    (Design.apply_operation trivialDataOps ⟨[]⟩ UndoableOp.MakeAllGrids).2 =
      OperationResult.UndoableChange :=
  (apply_operation_result_classification trivialDataOps ⟨[]⟩ UndoableOp.MakeAllGrids).2.2 rfl
    (fun _ h => nomatch h)

theorem lookup_make_cycle_map (k : Nat) (b : Bool) :
    ∀ (l : List (Nat × Strand)) (st : Strand), l.lookup k = some st →
      (l.map (fun p => if p.1 = k then (p.1, { p.2 with circular := b }) else p)).lookup k =
        some { st with circular := b } := by
  intro l
  induction l with
  | nil => intro st h; simp at h
  | cons p t ih =>
    obtain ⟨a, s⟩ := p
    intro st h
    by_cases hp : a = k
    · subst hp
      have hs : s = st := by
        rw [List.lookup_cons] at h
        simp at h
        exact h
      subst hs
      simp [List.lookup_cons]
    · rw [List.lookup_cons] at h
      have hbeq : (k == a) = false := beq_false_of_ne (fun he => hp he.symm)
      rw [hbeq] at h
      simp only [List.map_cons, if_neg hp]
      rw [List.lookup_cons, hbeq]
      exact ih st h

theorem make_cycle_round_trip (k : Nat) :
    ∀ (l : List (Nat × Strand)), (∀ p ∈ l, p.1 = k → p.2.circular = false) →
      (l.map (fun p => if p.1 = k then (p.1, { p.2 with circular := true }) else p)).map
          (fun p => if p.1 = k then (p.1, { p.2 with circular := false }) else p) = l := by
  intro l
  induction l with
  | nil => intro _; rfl
  | cons p t ih =>
    intro hlin
    have htail := ih (fun q hq hqk => hlin q (List.mem_cons_of_mem p hq) hqk)
    obtain ⟨a, s⟩ := p
    by_cases hp : a = k
    · have hcirc : s.circular = false := hlin (a, s) (List.mem_cons_self _ t) hp
      obtain ⟨dom, col, seq, scaf, circ⟩ := s
      simp only [Strand.circular] at hcirc
      subst hcirc
      subst hp
      simp [htail]
    · simp only [List.map_cons, if_neg hp]
      rw [htail]

/-- Claim C2: applying `Xover` with both end ids equal to `k` and
`undo:false` makes strand `k` circular via `make_cycle(k, true)` (a
`BigChange` from the old to the new strand map), and re-applying the same
operation with `undo:true` makes it linear again, restoring the exact
pre-operation data. -/
theorem xover_self_cycle_round_trip (ops : DataOps) (d : DataM) (k : Nat)
    (st s5 s3 s5b s3b : Strand)
    (hlookup : d.strands.lookup k = some st)
    (hlin : ∀ p ∈ d.strands, p.1 = k → p.2.circular = false) :
    ((Design.apply_operation ops d (UndoableOp.Xover s5 s3 k k false)).1.strands.lookup k =
      some { st with circular := true }) ∧
    ((Design.apply_operation ops d (UndoableOp.Xover s5 s3 k k false)).2 =
      OperationResult.BigChange d.strands
        (Design.apply_operation ops d (UndoableOp.Xover s5 s3 k k false)).1.strands) ∧
    ((Design.apply_operation ops
        (Design.apply_operation ops d (UndoableOp.Xover s5 s3 k k false)).1
        (UndoableOp.Xover s5b s3b k k true)).1 = d) := by
  have hstep1 : (Design.apply_operation ops d (UndoableOp.Xover s5 s3 k k false)).1 =
      Data.make_cycle k true d := by
    show (if k = k then Data.make_cycle k (!false) d
      else if false then ops.undo_merge s5 s3 k k d else ops.merge_strands k k d) =
      Data.make_cycle k true d
    rw [if_pos rfl]
    rfl
  refine ⟨?_, ?_, ?_⟩
  · rw [hstep1]
    exact lookup_make_cycle_map k true d.strands st hlookup
  · rfl
  · have hstep2 : (Design.apply_operation ops (Data.make_cycle k true d)
        (UndoableOp.Xover s5b s3b k k true)).1 =
        Data.make_cycle k false (Data.make_cycle k true d) := by
      show (if k = k then Data.make_cycle k (!true) (Data.make_cycle k true d)
        else if true then ops.undo_merge s5b s3b k k (Data.make_cycle k true d)
        else ops.merge_strands k k (Data.make_cycle k true d)) =
        Data.make_cycle k false (Data.make_cycle k true d)
      rw [if_pos rfl]
      rfl
    rw [hstep1, hstep2]
    have hrt := make_cycle_round_trip k d.strands hlin
    show (⟨((d.strands.map _).map _ : StrandState)⟩ : DataM) = d
    cases d
    exact congrArg DataM.mk hrt

/-- Witness for C2 on a one-strand design. -/
theorem xover_self_cycle_round_trip_witness :
    ((Design.apply_operation trivialDataOps ⟨[(0, ⟨[], 0, none, false, false⟩)]⟩
        (UndoableOp.Xover ⟨[], 0, none, false, false⟩ ⟨[], 0, none, false, false⟩ 0 0 false)).1.strands.lookup 0 =
      some ⟨[], 0, none, false, true⟩) ∧
    ((Design.apply_operation trivialDataOps
        (Design.apply_operation trivialDataOps ⟨[(0, ⟨[], 0, none, false, false⟩)]⟩
          (UndoableOp.Xover ⟨[], 0, none, false, false⟩ ⟨[], 0, none, false, false⟩ 0 0 false)).1
        (UndoableOp.Xover ⟨[], 0, none, false, false⟩ ⟨[], 0, none, false, false⟩ 0 0 true)).1 =
      ⟨[(0, ⟨[], 0, none, false, false⟩)]⟩) :=
  have h := xover_self_cycle_round_trip trivialDataOps ⟨[(0, ⟨[], 0, none, false, false⟩)]⟩ 0
    ⟨[], 0, none, false, false⟩ ⟨[], 0, none, false, false⟩ ⟨[], 0, none, false, false⟩
    ⟨[], 0, none, false, false⟩ ⟨[], 0, none, false, false⟩ (by decide) (by decide)
  ⟨h.1, h.2.2⟩

/-- Claim C7: in `WaitDoubleClick`, (1) while at most 250 ms have
elapsed the timer check does nothing, so (2) a second left release still
emits `DoubleClick(element)` and returns to `NormalState`; (3) once the
timer check observes strictly more than 250 ms it reverts to
`NormalState` with no consequence, after which (5) a left press in
`NormalState` (no Alt, not pasting, element neither grid nor widget)
starts a fresh `Selecting` sequence; and (4) cursor movement beyond a
Chebyshev distance of 5 physical pixels also reverts to `NormalState`
with no consequence. -/
theorem wait_double_click_timing (s : WaitDoubleClickData)
    (pos mp : PhysPosition) (now : Nat) (selected : Option SceneElement)
    (shift ctrl : Bool) (am : ActionMode) (gi : Option GridIntersection) (aw ah : ℚ) :
    (now - s.click_date ≤ 250 → WaitDoubleClick.check_timers s now = Transition.nothing) ∧
    (WaitDoubleClick.input s (.MouseInput .Released .left) pos =
      (s, { new_state := some (.NormalState s.mouse_position),
            consequences := .DoubleClick s.element })) ∧
    (250 < now - s.click_date → WaitDoubleClick.check_timers s now =
      { new_state := some (.NormalState s.mouse_position), consequences := .Nothing }) ∧
    (position_difference pos s.clicked_position > 5 →
      WaitDoubleClick.input s .CursorMoved pos =
        ({ s with mouse_position := pos },
         { new_state := some (.NormalState pos), consequences := .Nothing })) ∧
    ((∀ d g, selected ≠ some (.Grid d g)) → (∀ w, selected ≠ some (.WidgetElement w)) →
      normalStateInput mp (.MouseInput .Pressed .left) pos false false shift ctrl selected
          am gi aw ah now =
        { new_state := some (.Selecting pos pos selected now (shift || ctrl)),
          consequences := .Nothing }) := by
  refine ⟨?_, rfl, ?_, ?_, ?_⟩
  · intro h
    unfold WaitDoubleClick.check_timers
    rw [if_neg (by omega)]
  · intro h
    unfold WaitDoubleClick.check_timers
    rw [if_pos h]
  · intro h
    simp only [WaitDoubleClick.input]
    rw [if_pos h]
  · intro hng hnw
    cases selected with
    | none => rfl
    | some el =>
      cases el with
      | Grid d g => exact absurd rfl (hng d g)
      | WidgetElement w => exact absurd rfl (hnw w)
      | Nucleotide d i => rfl
      | DesignElement d i => rfl
      | GridCircle d g x y => rfl
      | PhantomElement i => rfl

/-- Witness for C7: 249 ms keeps waiting, 251 ms reverts, a 6-pixel move
reverts, and a plain left click on empty space starts `Selecting`. -/
theorem wait_double_click_timing_witness :
    WaitDoubleClick.check_timers ⟨0, none, ⟨0, 0⟩, ⟨0, 0⟩⟩ 249 = Transition.nothing ∧
    WaitDoubleClick.check_timers ⟨0, none, ⟨0, 0⟩, ⟨0, 0⟩⟩ 251 =
      { new_state := some (.NormalState ⟨0, 0⟩), consequences := .Nothing } ∧
    WaitDoubleClick.input ⟨0, none, ⟨0, 0⟩, ⟨0, 0⟩⟩ .CursorMoved ⟨6, 0⟩ =
      (⟨0, none, ⟨6, 0⟩, ⟨0, 0⟩⟩,
       { new_state := some (.NormalState ⟨6, 0⟩), consequences := .Nothing }) ∧
    normalStateInput ⟨0, 0⟩ (.MouseInput .Pressed .left) ⟨1, 1⟩ false false false false none
        .Normal none 100 100 7 =
      { new_state := some (.Selecting ⟨1, 1⟩ ⟨1, 1⟩ none 7 false),
        consequences := .Nothing } :=
  ⟨(wait_double_click_timing ⟨0, none, ⟨0, 0⟩, ⟨0, 0⟩⟩ ⟨0, 0⟩ ⟨0, 0⟩ 249 none false false
      .Normal none 100 100).1 (by norm_num),
   (wait_double_click_timing ⟨0, none, ⟨0, 0⟩, ⟨0, 0⟩⟩ ⟨0, 0⟩ ⟨0, 0⟩ 251 none false false
      .Normal none 100 100).2.2.1 (by norm_num),
   (wait_double_click_timing ⟨0, none, ⟨0, 0⟩, ⟨0, 0⟩⟩ ⟨6, 0⟩ ⟨0, 0⟩ 0 none false false
      .Normal none 100 100).2.2.2.1 (by
        show position_difference ⟨6, 0⟩ ⟨0, 0⟩ > 5
        norm_num [position_difference]),
   (wait_double_click_timing ⟨0, none, ⟨0, 0⟩, ⟨0, 0⟩⟩ ⟨1, 1⟩ ⟨0, 0⟩ 7 none false false
      .Normal none 100 100).2.2.2.2 (fun d g h => Option.noConfusion h)
      (fun w h => Option.noConfusion h)⟩

/-- Claim C8: the implementation's natural cross-over distance equals the
spec's closed form for every `Parameters` value (exactly, hence within
1e-6), in particular at `helix_radius = 1`, `z_step = 0.332`,
`bases_per_turn = 10.5`. -/
theorem dist_ac_closed_form :
    (∀ p : Parameters, dist_ac p = specDistAc p) ∧
    |dist_ac ⟨1, 0.332, 10.5, 0⟩ - specDistAc ⟨1, 0.332, 10.5, 0⟩| < 1e-6 := by
  have hall : ∀ p : Parameters, dist_ac p = specDistAc p := by
    intro p
    unfold dist_ac specDistAc dist_ac2 specDistAc2 angle_aoc2
    congr 1
    ring
  refine ⟨hall, ?_⟩
  rw [hall ⟨1, 0.332, 10.5, 0⟩]
  simp
  norm_num

theorem Vec3.smul_assoc (a b : ℝ) (v : Vec3) : a • (b • v) = (a * b) • v := by
  show (⟨a * (b * v.x), a * (b * v.y), a * (b * v.z)⟩ : Vec3) =
    ⟨a * b * v.x, a * b * v.y, a * b * v.z⟩
  simp only [Vec3.mk.injEq]
  exact ⟨by ring, by ring, by ring⟩

theorem Vec3.neg_sub_eq (a b : Vec3) : -(a - b) = b - a := by
  show (⟨-(a.x - b.x), -(a.y - b.y), -(a.z - b.z)⟩ : Vec3) = ⟨b.x - a.x, b.y - a.y, b.z - a.z⟩
  simp only [Vec3.mk.injEq]
  exact ⟨by ring, by ring, by ring⟩

theorem Vec3.mag_smul (c : ℝ) (v : Vec3) : (c • v).mag = |c| * v.mag := by
  unfold Vec3.mag
  have hsq : (c • v).mag_sq = c ^ 2 * v.mag_sq := by
    show c * v.x * (c * v.x) + c * v.y * (c * v.y) + c * v.z * (c * v.z) =
      c ^ 2 * (v.x * v.x + v.y * v.y + v.z * v.z)
    ring
  rw [hsq, Real.sqrt_mul (sq_nonneg c), Real.sqrt_sq_eq_abs]

theorem Vec3.mag_sub_comm (a b : Vec3) : (a - b).mag = (b - a).mag := by
  unfold Vec3.mag
  have hsq : (a - b).mag_sq = (b - a).mag_sq := by
    show (a.x - b.x) * (a.x - b.x) + (a.y - b.y) * (a.y - b.y) + (a.z - b.z) * (a.z - b.z) =
      (b.x - a.x) * (b.x - a.x) + (b.y - a.y) * (b.y - a.y) + (b.z - a.z) * (b.z - a.z)
    ring
  rw [hsq]

/-- Claim C4 (amended): away from the `1e-5` guard and for a nonnegative
`k_spring`, the force contribution added for an anchored nucleotide is
directed toward the anchor and has magnitude
`10 * k_spring * k_anchor * distance` (= `10000 * k_spring² * distance`)
— the code multiplies the anchor spring by an extra `k_spring` factor and
by the rigid 10× amplification, not `k_anchor * distance` as claimed. -/
theorem anchor_force_contribution_magnitude (k_spring : ℝ) (p0 anchor : Vec3)
    (hk : 0 ≤ k_spring) (hlen : (p0 - anchor).mag > 1e-5) :
    (anchorForceContribution k_spring p0 anchor =
      (10 * (k_spring * k_anchor k_spring)) • (anchor - p0)) ∧
    ((anchorForceContribution k_spring p0 anchor).mag =
      10 * k_spring * k_anchor k_spring * (p0 - anchor).mag) := by
  have hC : (0 : ℝ) ≤ 10 * (k_spring * k_anchor k_spring) := by
    unfold k_anchor
    positivity
  have heq : anchorForceContribution k_spring p0 anchor =
      (10 * (k_spring * k_anchor k_spring)) • (anchor - p0) := by
    unfold anchorForceContribution anchorForce
    rw [if_pos hlen, Vec3.neg_sub_eq, Vec3.smul_assoc]
  refine ⟨heq, ?_⟩
  rw [heq, Vec3.mag_smul, abs_of_nonneg hC, Vec3.mag_sub_comm anchor p0]
  ring

/-- Witness for C4 (amended) at `k_spring = 2`, `point_0 = (1,0,0)`,
anchor at the origin. -/
theorem anchor_force_contribution_magnitude_witness :
    (anchorForceContribution 2 ⟨1, 0, 0⟩ ⟨0, 0, 0⟩).mag =
      10 * 2 * k_anchor 2 * ((⟨1, 0, 0⟩ : Vec3) - ⟨0, 0, 0⟩).mag :=
  (anchor_force_contribution_magnitude 2 ⟨1, 0, 0⟩ ⟨0, 0, 0⟩ (by norm_num)
    (by
      show Vec3.mag ((⟨1, 0, 0⟩ : Vec3) - ⟨0, 0, 0⟩) > 1e-5
      have hsub : ((⟨1, 0, 0⟩ : Vec3) - ⟨0, 0, 0⟩) = ⟨1, 0, 0⟩ := by
        show (⟨1 - 0, 0 - 0, 0 - 0⟩ : Vec3) = ⟨1, 0, 0⟩
        norm_num
      rw [hsub]
      have hmag : Vec3.mag ⟨1, 0, 0⟩ = 1 := by
        show Real.sqrt (1 * 1 + 0 * 0 + 0 * 0) = 1
        norm_num
      rw [hmag]
      norm_num)).2

/-- Counterexample for C4: at `k_spring = 2` with the anchored point at
unit distance from its anchor, the added force contribution has magnitude
40000, not the claimed `k_anchor * distance = 2000`. -/
theorem anchor_force_counterexample :
    ¬ ((anchorForceContribution 2 ⟨1, 0, 0⟩ ⟨0, 0, 0⟩).mag =
       k_anchor 2 * ((⟨1, 0, 0⟩ : Vec3) - ⟨0, 0, 0⟩).mag) := by
  have hsub : ((⟨1, 0, 0⟩ : Vec3) - ⟨0, 0, 0⟩) = ⟨1, 0, 0⟩ := by
    show (⟨1 - 0, 0 - 0, 0 - 0⟩ : Vec3) = ⟨1, 0, 0⟩
    norm_num
  have hmag : Vec3.mag ⟨1, 0, 0⟩ = 1 := by
    show Real.sqrt (1 * 1 + 0 * 0 + 0 * 0) = 1
    norm_num
  have hcontrib : anchorForceContribution 2 ⟨1, 0, 0⟩ ⟨0, 0, 0⟩ = ⟨-40000, 0, 0⟩ := by
    unfold anchorForceContribution anchorForce k_anchor
    rw [hsub]
    rw [if_pos (by rw [hmag]; norm_num)]
    show (⟨10 * (2 * (1000 * 2) * -(1 : ℝ)), 10 * (2 * (1000 * 2) * -(0 : ℝ)),
      10 * (2 * (1000 * 2) * -(0 : ℝ))⟩ : Vec3) = ⟨-40000, 0, 0⟩
    norm_num
  have hcmag : (anchorForceContribution 2 ⟨1, 0, 0⟩ ⟨0, 0, 0⟩).mag = 40000 := by
    rw [hcontrib]
    show Real.sqrt ((-40000) * (-40000) + 0 * 0 + 0 * 0) = 40000
    have h2 : ((-40000 : ℝ)) * (-40000) + 0 * 0 + 0 * 0 = 40000 ^ 2 := by norm_num
    rw [h2]
    exact Real.sqrt_sq (by norm_num)
  rw [hcmag, hsub, hmag]
  unfold k_anchor
  norm_num

theorem Vec3.sub_def (a b : Vec3) : a - b = ⟨a.x - b.x, a.y - b.y, a.z - b.z⟩ := rfl

theorem Vec3.add_def (a b : Vec3) : a + b = ⟨a.x + b.x, a.y + b.y, a.z + b.z⟩ := rfl

theorem Vec3.mul_real_def (a : Vec3) (c : ℝ) : a * c = ⟨a.x * c, a.y * c, a.z * c⟩ := rfl

theorem Vec3.dot_def (a b : Vec3) : a.dot b = a.x * b.x + a.y * b.y + a.z * b.z := rfl

theorem Vec3.cross_def (a b : Vec3) : a.cross b =
    ⟨a.y * b.z - a.z * b.y, a.z * b.x - a.x * b.z, a.x * b.y - a.y * b.x⟩ := rfl

theorem Vec3.mag_sq_def (a : Vec3) : a.mag_sq = a.x * a.x + a.y * a.y + a.z * a.z := rfl

theorem Vec3.mag_def (a : Vec3) : a.mag = Real.sqrt a.mag_sq := rfl

/-- Claim C9: for the two perpendicular unit segments
`[(-1/2,0,0), (1/2,0,0)]` and `[(0,-1/2,h), (0,1/2,h)]`, offset by `h ≥ 0`
along their common normal, `distance_segment` returns exactly `h` (hence
within 1e-4); and for two non-parallel segments sharing an endpoint it
returns `0`. -/
theorem distance_segment_examples (h : ℝ) (hh : 0 ≤ h) :
    ((distance_segment ⟨-(1/2), 0, 0⟩ ⟨1/2, 0, 0⟩ ⟨0, -(1/2), h⟩ ⟨0, 1/2, h⟩).1 = h ∧
      |(distance_segment ⟨-(1/2), 0, 0⟩ ⟨1/2, 0, 0⟩ ⟨0, -(1/2), h⟩ ⟨0, 1/2, h⟩).1 - h| ≤ 1e-4) ∧
    (distance_segment ⟨0, 0, 0⟩ ⟨1, 0, 0⟩ ⟨0, 0, 0⟩ ⟨0, 1, 0⟩).1 = 0 := by
  have hA : (distance_segment ⟨-(1/2), 0, 0⟩ ⟨1/2, 0, 0⟩ ⟨0, -(1/2), h⟩ ⟨0, 1/2, h⟩).1 = h := by
    have hcross : ((( ⟨1/2, 0, 0⟩ : Vec3) - ⟨-(1/2), 0, 0⟩).cross
        ((⟨0, 1/2, h⟩ : Vec3) - ⟨0, -(1/2), h⟩)) = ⟨0, 0, 1⟩ := by
      simp only [Vec3.sub_def, Vec3.cross_def, Vec3.mk.injEq]
      norm_num
    have hcrossmag : ((( ⟨1/2, 0, 0⟩ : Vec3) - ⟨-(1/2), 0, 0⟩).cross
        ((⟨0, 1/2, h⟩ : Vec3) - ⟨0, -(1/2), h⟩)).mag = 1 := by
      rw [hcross, Vec3.mag_def, Vec3.mag_sq_def]
      norm_num
    have hmu : dsMu0 ⟨-(1/2), 0, 0⟩ ⟨1/2, 0, 0⟩ ⟨0, -(1/2), h⟩ ⟨0, 1/2, h⟩ = 1/2 := by
      simp only [dsMu0, Vec3.sub_def, Vec3.dot_def, Vec3.mag_sq_def]
      norm_num
    have hlam : dsLambda0 ⟨-(1/2), 0, 0⟩ ⟨1/2, 0, 0⟩ ⟨0, -(1/2), h⟩ ⟨0, 1/2, h⟩ = 1/2 := by
      simp only [dsLambda0, hmu, Vec3.sub_def, Vec3.dot_def, Vec3.mag_sq_def]
      norm_num
    have hcond : 0 ≤ dsMu0 ⟨-(1/2), 0, 0⟩ ⟨1/2, 0, 0⟩ ⟨0, -(1/2), h⟩ ⟨0, 1/2, h⟩ ∧
        dsMu0 ⟨-(1/2), 0, 0⟩ ⟨1/2, 0, 0⟩ ⟨0, -(1/2), h⟩ ⟨0, 1/2, h⟩ ≤ 1 ∧
        0 ≤ dsLambda0 ⟨-(1/2), 0, 0⟩ ⟨1/2, 0, 0⟩ ⟨0, -(1/2), h⟩ ⟨0, 1/2, h⟩ ∧
        dsLambda0 ⟨-(1/2), 0, 0⟩ ⟨1/2, 0, 0⟩ ⟨0, -(1/2), h⟩ ⟨0, 1/2, h⟩ ≤ 1 := by
      rw [hmu, hlam]
      norm_num
    rw [distance_segment, if_neg (by rw [hcrossmag]; norm_num), if_pos hcond, hmu, hlam]
    have hvec : ((( ⟨-(1/2), 0, 0⟩ : Vec3) + ((⟨1/2, 0, 0⟩ : Vec3) - ⟨-(1/2), 0, 0⟩) * (1/2 : ℝ)) -
        ((⟨0, -(1/2), h⟩ : Vec3) + ((⟨0, 1/2, h⟩ : Vec3) - ⟨0, -(1/2), h⟩) * (1/2 : ℝ))) =
        ⟨0, 0, -h⟩ := by
      simp only [Vec3.sub_def, Vec3.mul_real_def, Vec3.add_def, Vec3.mk.injEq]
      refine ⟨by norm_num, by norm_num, by ring⟩
    rw [hvec]
    show Vec3.mag ⟨0, 0, -h⟩ = h
    rw [Vec3.mag_def, Vec3.mag_sq_def]
    have hsq : ((0 : ℝ) * 0 + 0 * 0 + -h * -h) = h ^ 2 := by ring
    rw [hsq, Real.sqrt_sq hh]
  refine ⟨⟨hA, by rw [hA]; norm_num⟩, ?_⟩
  have hcross2 : ((( ⟨1, 0, 0⟩ : Vec3) - ⟨0, 0, 0⟩).cross
      ((⟨0, 1, 0⟩ : Vec3) - ⟨0, 0, 0⟩)) = ⟨0, 0, 1⟩ := by
    simp only [Vec3.sub_def, Vec3.cross_def, Vec3.mk.injEq]
    norm_num
  have hcrossmag2 : ((( ⟨1, 0, 0⟩ : Vec3) - ⟨0, 0, 0⟩).cross
      ((⟨0, 1, 0⟩ : Vec3) - ⟨0, 0, 0⟩)).mag = 1 := by
    rw [hcross2, Vec3.mag_def, Vec3.mag_sq_def]
    norm_num
  have hmu2 : dsMu0 ⟨0, 0, 0⟩ ⟨1, 0, 0⟩ ⟨0, 0, 0⟩ ⟨0, 1, 0⟩ = 0 := by
    simp only [dsMu0, Vec3.sub_def, Vec3.dot_def, Vec3.mag_sq_def]
    norm_num
  have hlam2 : dsLambda0 ⟨0, 0, 0⟩ ⟨1, 0, 0⟩ ⟨0, 0, 0⟩ ⟨0, 1, 0⟩ = 0 := by
    simp only [dsLambda0, hmu2, Vec3.sub_def, Vec3.dot_def, Vec3.mag_sq_def]
    norm_num
  have hcond2 : 0 ≤ dsMu0 ⟨0, 0, 0⟩ ⟨1, 0, 0⟩ ⟨0, 0, 0⟩ ⟨0, 1, 0⟩ ∧
      dsMu0 ⟨0, 0, 0⟩ ⟨1, 0, 0⟩ ⟨0, 0, 0⟩ ⟨0, 1, 0⟩ ≤ 1 ∧
      0 ≤ dsLambda0 ⟨0, 0, 0⟩ ⟨1, 0, 0⟩ ⟨0, 0, 0⟩ ⟨0, 1, 0⟩ ∧
      dsLambda0 ⟨0, 0, 0⟩ ⟨1, 0, 0⟩ ⟨0, 0, 0⟩ ⟨0, 1, 0⟩ ≤ 1 := by
    rw [hmu2, hlam2]
    norm_num
  rw [distance_segment, if_neg (by rw [hcrossmag2]; norm_num), if_pos hcond2, hmu2, hlam2]
  have hvec2 : ((( ⟨0, 0, 0⟩ : Vec3) + ((⟨1, 0, 0⟩ : Vec3) - ⟨0, 0, 0⟩) * (0 : ℝ)) -
      ((⟨0, 0, 0⟩ : Vec3) + ((⟨0, 1, 0⟩ : Vec3) - ⟨0, 0, 0⟩) * (0 : ℝ))) = ⟨0, 0, 0⟩ := by
    simp only [Vec3.sub_def, Vec3.mul_real_def, Vec3.add_def, Vec3.mk.injEq]
    norm_num
  rw [hvec2]
  show Vec3.mag ⟨0, 0, 0⟩ = 0
  rw [Vec3.mag_def, Vec3.mag_sq_def]
  norm_num

/-- Witness for C9 at `h = 1/2`. -/
theorem distance_segment_examples_witness :
    (distance_segment ⟨-(1/2), 0, 0⟩ ⟨1/2, 0, 0⟩ ⟨0, -(1/2), 1/2⟩ ⟨0, 1/2, 1/2⟩).1 = 1/2 ∧
    (distance_segment ⟨0, 0, 0⟩ ⟨1, 0, 0⟩ ⟨0, 0, 0⟩ ⟨0, 1, 0⟩).1 = 0 :=
  ⟨((distance_segment_examples (1/2) (by norm_num)).1).1,
   (distance_segment_examples (1/2) (by norm_num)).2⟩

theorem opt_bind_congr_none {α β : Type} (x : Option α) (f : α → Option β)
    (hf : ∀ a, f a = none) : (x >>= f) = none := by
  cases x with
  | none => rfl
  | some a => exact hf a

theorem opt_bind_isSome_of {α β : Type} {x : Option α} {f : α → Option β} (a : α)
    (hx : x = some a) {Q : β → Prop} (hf : ∃ b, f a = some b ∧ Q b) :
    ∃ b, (x >>= f) = some b ∧ Q b := by
  obtain ⟨b, hb, hQ⟩ := hf
  exact ⟨b, by rw [hx]; exact hb, hQ⟩

theorem foldlM_option_isSome {α β : Type} (f : β → α → Option β) (P : β → Prop) :
    ∀ (l : List α) (b : β), P b →
      (∀ b2 a, P b2 → a ∈ l → ∃ b3, f b2 a = some b3 ∧ P b3) →
      ∃ b3, List.foldlM f b l = some b3 ∧ P b3 := by
  intro l
  induction l with
  | nil => intro b hb _; exact ⟨b, rfl, hb⟩
  | cons a t ih =>
    intro b hb hstep
    obtain ⟨b2, hfb, hb2⟩ := hstep b a hb (List.mem_cons_self a t)
    obtain ⟨b3, hfold, hb3⟩ :=
      ih b2 hb2 (fun b4 x hb4 hx => hstep b4 x hb4 (List.mem_cons_of_mem a hx))
    refine ⟨b3, ?_, hb3⟩
    rw [List.foldlM_cons, hfb]
    exact hfold

theorem list_get?_isSome_of_lt {α : Type} (l : List α) (i : Nat) (h : i < l.length) :
    ∃ a, l.get? i = some a :=
  ⟨l.get ⟨i, h⟩, List.get?_eq_get h⟩

theorem opt_get_bind_isSome {α β : Type} (l : List α) (i : Nat) (h : i < l.length)
    {f : α → Option β} {Q : β → Prop}
    (hf : ∀ a, l.get? i = some a → ∃ b, f a = some b ∧ Q b) :
    ∃ b, (l.get? i >>= f) = some b ∧ Q b := by
  obtain ⟨a, ha⟩ := list_get?_isSome_of_lt l i h
  exact opt_bind_isSome_of a ha (hf a ha)

theorem sfFrictionStage_isSome (sys : SpringSystem) (n : Nat)
    (hsp : sys.speed.length = n) (hacc : sys.acceleration.length = n) :
    ∃ a, sfFrictionStage sys = some a ∧ a.length = n := by
  unfold sfFrictionStage
  refine foldlM_option_isSome _ (fun acc => acc.length = n) _ sys.acceleration hacc ?_
  intro acc i hlen hi
  rw [List.mem_range, hacc] at hi
  obtain ⟨s, hs⟩ := list_get?_isSome_of_lt sys.speed i (by omega)
  refine ⟨acc.set i (((-s) * FRICTION) / MASS_HELIX), ?_, ?_⟩
  · show (sys.speed.get? i).map (fun s => acc.set i (((-s) * FRICTION) / MASS_HELIX)) =
      some (acc.set i (((-s) * FRICTION) / MASS_HELIX))
    rw [hs]
    rfl
  · show (acc.set i (((-s) * FRICTION) / MASS_HELIX)).length = n
    rw [List.length_set]
    exact hlen

theorem sfXoverStep_isSome (data : DesignData) (st : List Vec3 × Bool) (pair : Nucl × Nucl)
    (hP : st.1.length = data.helices.length)
    (h1 : ∃ v, data.helix_map pair.1.helix = some v ∧ v < data.helices.length)
    (h2 : ∃ v, data.helix_map pair.2.helix = some v ∧ v < data.helices.length) :
    ∃ st2, sfXoverStep data st pair = some st2 ∧ st2.1.length = data.helices.length := by
  obtain ⟨v1, hm1, hlt1⟩ := h1
  obtain ⟨v2, hm2, hlt2⟩ := h2
  unfold sfXoverStep
  refine opt_bind_isSome_of v1 hm1 ?_
  refine opt_bind_isSome_of v2 hm2 ?_
  refine opt_get_bind_isSome data.helices v1 hlt1 (fun me hme => ?_)
  refine opt_get_bind_isSome data.helices v2 hlt2 (fun other hother => ?_)
  refine opt_get_bind_isSome st.1 v1 (by rw [hP]; exact hlt1) (fun a1 ha1 => ?_)
  refine opt_get_bind_isSome _ v2 (by rw [List.length_set, hP]; exact hlt2) (fun a2 ha2 => ?_)
  refine ⟨_, rfl, ?_⟩
  simp only [List.length_set]
  exact hP

theorem sfCollisionInner_isSome (data : DesignData) (r : ℝ) (i j : Nat) (aPt bPt : Vec3)
    (acc : List Vec3) (hacc : acc.length = data.helices.length)
    (hilt : i < data.helices.length) (hjlt : j < data.helices.length)
    (hint : data.intervals.length = data.helices.length) :
    ∃ acc2, sfCollisionInner data r i aPt bPt acc j = some acc2 ∧
      acc2.length = data.helices.length := by
  obtain ⟨ivj, hivj⟩ := list_get?_isSome_of_lt data.intervals j (by rw [hint]; exact hjlt)
  unfold sfCollisionInner
  refine opt_bind_isSome_of ivj hivj ?_
  cases ivj with
  | none => exact ⟨acc, rfl, hacc⟩
  | some jv =>
    refine opt_get_bind_isSome data.helices j hjlt (fun hj hhj => ?_)
    dsimp only
    split
    · refine opt_get_bind_isSome acc i (by rw [hacc]; exact hilt) (fun ai hai => ?_)
      refine opt_get_bind_isSome _ j (by rw [List.length_set, hacc]; exact hjlt)
        (fun aj haj => ?_)
      refine ⟨_, rfl, ?_⟩
      simp only [List.length_set]
      exact hacc
    · exact ⟨acc, rfl, hacc⟩

theorem sfCollisionOuter_isSome (data : DesignData) (r : ℝ) (acc : List Vec3) (i : Nat)
    (hacc : acc.length = data.helices.length) (hilt : i < data.helices.length)
    (hint : data.intervals.length = data.helices.length) :
    ∃ acc2, sfCollisionOuter data r data.helices.length acc i = some acc2 ∧
      acc2.length = data.helices.length := by
  obtain ⟨ivi, hivi⟩ := list_get?_isSome_of_lt data.intervals i (by rw [hint]; exact hilt)
  unfold sfCollisionOuter
  refine opt_bind_isSome_of ivi hivi ?_
  cases ivi with
  | none => exact ⟨acc, rfl, hacc⟩
  | some iv =>
    refine opt_get_bind_isSome data.helices i hilt (fun hiHelix hhi => ?_)
    dsimp only
    refine foldlM_option_isSome _ (fun a => a.length = data.helices.length) _ acc hacc ?_
    intro acc2 j hlen2 hj
    rw [List.mem_range'_1] at hj
    exact sfCollisionInner_isSome data r i j _ _ acc2 hlen2 hilt (by omega) hint

/-- Claim C10: `update_acceleration` evaluates the collision-loop bound
`nb_helices - 1` in unsigned arithmetic; with an empty helices list the
subtraction underflows and the call is not safe (`none`, modelling the
panic), while for a consistently sized system with at least one helix
(and resolvable cross-over helix ids — the `.unwrap()` precondition) the
whole update is well defined. -/
theorem spring_update_acceleration_partiality :
    (∀ (sys : SpringSystem) (data : DesignData), data.helices = [] →
      SpringSystem.update_acceleration sys data = none) ∧
    (∀ (sys : SpringSystem) (data : DesignData),
      sys.speed.length = data.helices.length →
      sys.acceleration.length = data.helices.length →
      data.intervals.length = data.helices.length →
      data.helices ≠ [] →
      (∀ pr ∈ data.xovers,
        (∃ v, data.helix_map pr.1.helix = some v ∧ v < data.helices.length) ∧
        (∃ v, data.helix_map pr.2.helix = some v ∧ v < data.helices.length)) →
      (SpringSystem.update_acceleration sys data).isSome) := by
  constructor
  · intro sys data hempty
    unfold SpringSystem.update_acceleration
    refine opt_bind_congr_none _ _ (fun accel0 => ?_)
    refine opt_bind_congr_none _ _ (fun p => ?_)
    rw [hempty]
    rfl
  · intro sys data hsp hacc hint hne hxov
    rw [Option.isSome_iff_exists]
    obtain ⟨a0, ha0, ha0len⟩ := sfFrictionStage_isSome sys data.helices.length hsp hacc
    obtain ⟨p, hp, hplen⟩ := foldlM_option_isSome (sfXoverStep data)
      (fun st : List Vec3 × Bool => st.1.length = data.helices.length) data.xovers (a0, false)
      ha0len
      (fun st pr hst hpr => sfXoverStep_isSome data st pr hst (hxov pr hpr).1 (hxov pr hpr).2)
    have hbound : usizeSub data.helices.length 1 = some (data.helices.length - 1) := by
      unfold usizeSub
      rw [if_pos (by have := List.length_pos.mpr hne; omega)]
    obtain ⟨a2, ha2, _⟩ := foldlM_option_isSome
      (sfCollisionOuter data
        (2 * data.parameters.helix_radius + data.parameters.inter_helix_gap)
        data.helices.length)
      (fun a => a.length = data.helices.length)
      (List.range (data.helices.length - 1)) p.1 hplen
      (fun acc i hlen hi => sfCollisionOuter_isSome data _ acc i hlen
        (by rw [List.mem_range] at hi; omega) hint)
    have hchain : ∃ b, SpringSystem.update_acceleration sys data = some b ∧ True := by
      unfold SpringSystem.update_acceleration
      refine opt_bind_isSome_of a0 ha0 ?_
      refine opt_bind_isSome_of p hp ?_
      refine opt_bind_isSome_of _ hbound ?_
      refine opt_bind_isSome_of a2 ha2 ?_
      exact ⟨_, rfl, trivial⟩
    obtain ⟨b, hb, _⟩ := hchain
    exact ⟨b, hb⟩

/-- Witness for C10: the empty system underflows (`none`), the one-helix
system is well defined. -/
theorem spring_update_acceleration_partiality_witness :
    SpringSystem.update_acceleration (SpringSystem.new 0) exampleEmptyData = none ∧
    (SpringSystem.update_acceleration (SpringSystem.new 1) exampleDesignData).isSome :=
  ⟨spring_update_acceleration_partiality.1 (SpringSystem.new 0) exampleEmptyData rfl,
   spring_update_acceleration_partiality.2 (SpringSystem.new 1) exampleDesignData
     (by simp [SpringSystem.new, exampleDesignData])
     (by simp [SpringSystem.new, exampleDesignData])
     (by simp [exampleDesignData])
     (by simp [exampleDesignData])
     (fun pr hpr => absurd hpr (List.not_mem_nil pr))⟩
